import Mathlib

/-!
# Verification of the BOS Web Engine serialization core

Shallow embedding of the two serialization modules found in the repository
(the `serialize` module exporting `encodeJsonString`, `decodeJsonString`,
`serializeProps`, `serializeArgs`, `serializeNode`, `deserializeProps`, and
the newer module built around `composeSerializationMethods` with
`serializeChildComponent` and `isWidget`/`isComponent` capability checks),
together with theorems settling the frozen claims about them.

JavaScript runtime values are modelled by the inductive `Val` below.  JS
objects are association lists of string keys; `undefined` and `null` are
conflated into `Val.null` (the serialization code only ever distinguishes
them through truthiness, where both are falsy).  Functions are opaque values
carrying an identity (`fid`), a `name` (the `Function.name` property) and a
`body` (the source text returned by `Function.prototype.toString`).
-/

/-- A JavaScript value as consumed and produced by the serialization code.
`closure` is the representation of the invocable functions that
`deserializeProps` rebuilds from a `__componentcallbacks` marker: it records
the captured `__componentMethod` value; the behaviour of such a closure is
modelled separately by `componentCallback`. -/
inductive Val where
  | null
  | bool (b : Bool)
  | num (n : Int)
  | str (s : String)
  | fn (fid : Nat) (name : String) (body : String)
  | closure (method : Val)
  | arr (elems : List Val)
  | obj (fields : List (String × Val))

/-- First-match lookup of a key in a JS object's field list. -/
def lookupField : List (String × Val) → String → Option Val
  | [], _ => none
  | (k', v) :: rest, k => if k' = k then some v else lookupField rest k

/-- JS property assignment `o[k] = v`: overwrite in place, or append. -/
def setField : List (String × Val) → String → Val → List (String × Val)
  | [], k, v => [(k, v)]
  | (k', v') :: rest, k, v =>
      if k' = k then (k, v) :: rest else (k', v') :: setField rest k v

/-- JS `delete o[k]`. -/
def eraseField : List (String × Val) → String → List (String × Val)
  | [], _ => []
  | (k', v) :: rest, k =>
      if k' = k then eraseField rest k else (k', v) :: eraseField rest k

/-- The object literal `{...a, ...b}`: a copy of `a` into which the entries
of `b` are assigned in order (overwriting in place or appending, exactly as
JS property assignment does). -/
def spread2 (a b : List (String × Val)) : List (String × Val) :=
  b.foldl (fun acc kv => setField acc kv.1 kv.2) a

/-- JS truthiness. -/
def truthy : Val → Bool
  | .null => false
  | .bool b => b
  | .num n => n ≠ 0
  | .str s => s ≠ ""
  | .fn .. => true
  | .closure _ => true
  | .arr _ => true
  | .obj _ => true

/-- `typeof v === 'object'` (true for `null`, arrays and plain objects). -/
def isObjectType : Val → Bool
  | .null => true
  | .arr _ => true
  | .obj _ => true
  | _ => false

/-- JS property read `v[k]` / `v?.[k]`, `none` standing for `undefined`.
Array index/length properties are not modelled (the serialization code never
reads string-keyed properties off arrays). -/
def getProp : Val → String → Option Val
  | .obj fields, k => lookupField fields k
  | _, _ => none

/-- JS `k in v`. -/
def hasProp (v : Val) (k : String) : Bool :=
  (getProp v k).isSome

/-- JS `String(v)` / `v.toString()` for the values the serialization code
stringifies (component paths, instance ids and function bodies; array and
object stringification is approximated since the code only ever stringifies
strings, numbers and functions here). -/
def jsToString : Val → String
  | .null => "null"
  | .bool b => if b then "true" else "false"
  | .num n => toString n
  | .str s => s
  | .fn _ _ body => body
  | .closure _ => "(...args) => {}"
  | .arr _ => ""
  | .obj _ => "[object Object]"

/-- How `Array.prototype.join` renders one element: `null`/`undefined`
become the empty string, everything else is stringified. -/
def jsJoinVal : Option Val → String
  | none => ""
  | some .null => ""
  | some v => jsToString v

/-- `x?.toString()` for an optional value (`undefined` propagates). -/
def jsOptToString : Option Val → Option Val
  | none => none
  | some .null => none
  | some v => some (.str (jsToString v))

/-- `Array.prototype.flat()` (one level). -/
def jsFlat (vs : List Val) : List Val :=
  vs.flatMap (fun v => match v with | .arr es => es | v => [v])

/-- `componentId || fallback` where `componentId` is an optional string
(`undefined` and the empty string are both falsy). -/
def jsStrOr : Option String → String → String
  | some s, fallback => if s = "" then fallback else s
  | none, fallback => fallback

/-- Truthiness of an optional string (`componentId` in `serializeProps`). -/
def strTruthy : Option String → Bool
  | some s => s ≠ ""
  | none => false

/-- `body.replace(/\\n/g, '')` as it appears in the callback-key
construction: removes every occurrence of the two-character sequence
backslash-`n` (the regex `\\n` matches a literal backslash followed by `n`,
not a newline). -/
def stripEscapedNewlines : List Char → List Char
  | '\\' :: 'n' :: rest => stripEscapedNewlines rest
  | c :: rest => c :: stripEscapedNewlines rest
  | [] => []

/-- String wrapper for `stripEscapedNewlines`. -/
def removeBackslashN (s : String) : String :=
  String.mk (stripEscapedNewlines s.data)

/-- U+2063 INVISIBLE SEPARATOR, the private-use stand-in for `\n`. -/
def invisibleSeparator : Char := Char.ofNat 0x2063

/-- U+2064 INVISIBLE PLUS, the private-use stand-in for `\t`. -/
def invisiblePlus : Char := Char.ofNat 0x2064

/-- `encodeJsonString` from the serialize module: the empty (falsy) string
is returned as-is; otherwise `\n` is globally replaced by U+2063 and then
`\t` by U+2064.  Single-character global replacement is modelled as a map
over the string's characters. -/
def encodeJsonString (value : String) : String :=
  if value = "" then value
  else
    String.mk
      ((value.data.map (fun c => if c = '\n' then invisibleSeparator else c)).map
        (fun c => if c = '\t' then invisiblePlus else c))

/-- `decodeJsonString` from the serialize module: the inverse replacement,
U+2063 back to `\n` and then U+2064 back to `\t`. -/
def decodeJsonString (value : String) : String :=
  if value = "" then value
  else
    String.mk
      ((value.data.map (fun c => if c = invisibleSeparator then '\n' else c)).map
        (fun c => if c = invisiblePlus then '\t' else c))

/-- `buildComponentId` (identical in both serialize modules):
`[componentPath, instanceId?.toString(), parentComponentId].join('##')`,
with an absent `instanceId` rendered as the empty string by `join`.
Parameter order follows the `BuildComponentIdParams` interface. -/
def buildComponentId (instanceId : Option String) (componentPath : String)
    (parentComponentId : String) : String :=
  String.intercalate "##" [componentPath, instanceId.getD "", parentComponentId]

/-- Errors during serialization: `thrown` models a JS exception (catchable
by the `try`/`catch` in `serializeChildComponent`); `fuel` is the
out-of-recursion-budget marker of this embedding and is never caught, so a
run that finishes without `fuel` corresponds exactly to a terminating JS
run. -/
inductive SErr where
  | thrown (msg : String)
  | fuel

/-- The mutable context shared by the serialization methods of one
container: the `childComponents` accumulator array and the context-local
`callbacks` table (the CallbackMap). -/
structure SState where
  childComponents : List Val
  callbacks : List (String × Val)

/-- The pre-pass of `serializeNode` over `unifiedChildren`: for every child
that is a truthy object with a `childComponents` property, its entries are
appended to the accumulator (`child.childComponents.forEach(push)`); a
non-array `childComponents` value makes `forEach` throw a `TypeError`. -/
def collectChildComponents : List Val → Except SErr (List Val)
  | [] => .ok []
  | c :: rest =>
    if truthy c && isObjectType c && hasProp c "childComponents" then
      match getProp c "childComponents" with
      | some (.arr es) => (collectChildComponents rest).map (fun tail => es ++ tail)
      | _ => .error (.thrown "child.childComponents.forEach is not a function")
    else collectChildComponents rest

/-- The callback key built by `serializeProps` (identical in both modules):
`[key, middle, parentId].join('::')` where `middle` is
`componentId || value.toString().replace(/\\n/g, '')`. -/
def mkFnKey (key middle parentId : String) : String :=
  String.intercalate "::" [key, middle, parentId]

/-- `value?.props` truthiness (the guard deciding whether a child is
serialized at all, and the first conjunct of the rendered-node check). -/
def propsTruthy (v : Val) : Bool :=
  match getProp v "props" with | some p => truthy p | none => false

/-- The duck-typed rendered-node check at the head of `serializeProps`:
`value?.props && typeof value === 'object' && '__' in value && '__k' in
value`. -/
def isComponentCheck (v : Val) : Bool :=
  propsTruthy v && isObjectType v && hasProp v "__" && hasProp v "__k"

/-- `value?.__bweMeta?.isProxy || false`. -/
def isProxyCheck (v : Val) : Bool :=
  match getProp v "__bweMeta" with
  | some m => (match getProp m "isProxy" with | some ip => truthy ip | none => false)
  | none => false

/-- `Object.entries` of a value expected to be a plain object (non-objects
contribute no entries; the serialization call sites only ever reach this
with an object or not at all). -/
def asFields : Val → List (String × Val)
  | .obj fs => fs
  | _ => []

/-- The elements of a value expected to be an array (used where the code
has just built an array result). -/
def asElems : Val → List Val
  | .arr es => es
  | _ => []

/-- The component id `serializeChildComponent` derives from a marker's
props: `buildComponentId({instanceId: props.id, componentPath: props.src,
parentComponentId: parentId})`. -/
def childIdOf (props : List (String × Val)) (parentId : String) : String :=
  buildComponentId
    (match lookupField props "id" with
     | none => none | some .null => none | some v => some (jsToString v))
    (jsJoinVal (lookupField props "src")) parentId

/-- The placeholder host element returned for a nested component: a `div`
mount point carrying the component id. -/
def placeholderOf (componentId : String) : Val :=
  .obj [("type", .str "div"),
        ("props", .obj [("id", .str ("dom-" ++ componentId)),
                        ("__bweMeta", .obj [("componentId", .str componentId)]),
                        ("className", .str "container-child")])]

namespace Compose

/-- The four mutually recursive operations of the
`composeSerializationMethods` module, folded into one request type so that
the recursion is structural in the fuel: `node` is `serializeNode`,
`nodeList` the `unifiedChildren.flat().map(...)` loop of its host-element
branch, `props` the `Object.entries(props).reduce(...)` loop of
`serializeProps` (with the accumulator object made explicit), and `child`
is `serializeChildComponent`. -/
inductive SReq where
  | node (node : Val) (parentId : String)
  | nodeList (children : List Val) (parentId : String)
  | props (componentId : Option String) (parentId : String)
      (entries : List (String × Val)) (acc : List (String × Val))
  | child (parentId : String) (props : List (String × Val))

/-- One step interpreter for the serialization methods composed for a
container with capability checks `isWidget`/`isComponent` (predicates on
the function value's identity).  Every recursive call consumes one unit of
fuel; `SErr.fuel` propagates uncaught.  Results are JS values: `node`
requests return the serialized node, `nodeList` an array, `props` the new
props object, and `child` the `{ child, placeholder }` record returned by
`serializeChildComponent`. -/
def serializeAny (isWidget isComponent : Nat → Bool) :
    Nat → SReq → SState → Except SErr Val × SState
  | 0, _, st => (.error .fuel, st)
  | fuel + 1, .node node parentId, st =>
    -- `if (!node || typeof node !== 'object') return node`
    if !truthy node || !isObjectType node then (.ok node, st)
    else
      let type? := getProp node "type"
      let serializedElementType := match type? with | some (.str s) => s | _ => ""
      -- `const children = node?.props?.children || []`
      let childrenRaw : Val :=
        match getProp node "props" with
        | some p =>
          match getProp p "children" with
          | some c => if truthy c then c else .arr []
          | none => .arr []
        | none => .arr []
      -- `let props = {...node.props}; delete props.children`
      let props0 : List (String × Val) :=
        match getProp node "props" with | some (.obj fs) => fs | _ => []
      let props := eraseField props0 "children"
      let unifiedChildren := match childrenRaw with | .arr es => es | v => [v]
      match collectChildComponents unifiedChildren with
      | .error e => (.error e, st)
      | .ok pushed =>
        let st1 : SState := { st with childComponents := st.childComponents ++ pushed }
        match type? with
        | some (.fn fid name _) =>
          -- `if (!isWidget(type) && !isComponent(type)) throw ...`
          if !isWidget fid && !isComponent fid then
            (.error (.thrown ("unrecognized Component function " ++ name)), st1)
          else
            match serializeAny isWidget isComponent fuel (.child parentId props) st1 with
            | (.ok r, st2) =>
              let placeholder := (getProp r "placeholder").getD .null
              (match getProp r "child" with
               | some c =>
                 -- `if (child) childComponents.push(child)`
                 if truthy c then
                   (.ok placeholder,
                    { st2 with childComponents := st2.childComponents ++ [c] })
                 else (.ok placeholder, st2)
               | none => (.ok placeholder, st2))
            | (.error e, st2) => (.error e, st2)
        | some (.closure _) =>
          -- a rebuilt callback in `type` position is a function value with
          -- no recognized capability: the same throw fires
          (.error (.thrown "unrecognized Component function "), st1)
        | _ =>
          match serializeAny isWidget isComponent fuel (.props none parentId props []) st1 with
          | (.error e, st2) => (.error e, st2)
          | (.ok sprops, st2) =>
            match serializeAny isWidget isComponent fuel
                (.nodeList (jsFlat unifiedChildren) parentId) st2 with
            | (.error e, st3) => (.error e, st3)
            | (.ok cs, st3) =>
              (.ok (.obj [("type", .str serializedElementType),
                          ("props", .obj (spread2 (asFields sprops)
                            [("children", .arr (asElems cs))])),
                          ("childComponents", .arr st3.childComponents)]), st3)
  | fuel + 1, .nodeList cs parentId, st =>
    match cs with
    | [] => (.ok (.arr []), st)
    | c :: rest =>
      -- `c?.props ? serializeNode({node: c, ...}) : c`
      let cRun :=
        if propsTruthy c then
          serializeAny isWidget isComponent fuel (.node c parentId) st
        else (.ok c, st)
      match cRun with
      | (.error e, st') => (.error e, st')
      | (.ok sc, st') =>
        match serializeAny isWidget isComponent fuel (.nodeList rest parentId) st' with
        | (.error e, st'') => (.error e, st'')
        | (.ok (.arr srest), st'') => (.ok (.arr (sc :: srest)), st'')
        | (.ok _, st'') => (.error (.thrown "impossible"), st'')
  | fuel + 1, .props componentId parentId entries acc, st =>
    match entries with
    | [] => (.ok (.obj acc), st)
    | (key, value) :: rest =>
      -- the duck-typed checks at the head of the reduce body
      let isComp := isComponentCheck value
      let isFunction := match value with | .fn .. => true | .closure _ => true | _ => false
      let isProxy := isProxyCheck value
      if isFunction then
        let body := removeBackslashN (jsToString value)
        let fnKey := mkFnKey key (jsStrOr componentId body) parentId
        -- `callbacks[fnKey] = value`
        let st1 : SState := { st with callbacks := setField st.callbacks fnKey value }
        let acc' :=
          if strTruthy componentId then
            let cur := (lookupField acc "__componentcallbacks").getD .null
            let curFields := if truthy cur then (match cur with | .obj fs => fs | _ => []) else []
            setField acc "__componentcallbacks"
              (.obj (setField curFields key
                (.obj [("__componentMethod", .str fnKey), ("parentId", .str parentId)])))
          else
            let cur := (lookupField acc "__domcallbacks").getD .null
            let curFields := if truthy cur then (match cur with | .obj fs => fs | _ => []) else []
            setField acc "__domcallbacks"
              (.obj (setField curFields key (.obj [("__componentMethod", .str fnKey)])))
        serializeAny isWidget isComponent fuel (.props componentId parentId rest acc') st1
      else
        if isComp then
          -- `serializeNode({childComponents: [], node: value, parentId})`:
          -- fresh accumulator array, shared callbacks table
          match serializeAny isWidget isComponent fuel (.node value parentId)
                  { childComponents := [], callbacks := st.callbacks } with
          | (.ok sv, stInner) =>
            serializeAny isWidget isComponent fuel
              (.props componentId parentId rest (setField acc key sv))
              { childComponents := st.childComponents, callbacks := stInner.callbacks }
          | (.error e, stInner) =>
            (.error e, { childComponents := st.childComponents, callbacks := stInner.callbacks })
        else
          -- non-function, non-component values pass through; the `isProxy`
          -- shallow copy `{...value}` is the identity on immutable values
          let serializedValue := if isProxy then value else value
          serializeAny isWidget isComponent fuel
            (.props componentId parentId rest (setField acc key serializedValue)) st
  | fuel + 1, .child parentId props, st =>
    -- `const { id: instanceId, src, props: componentProps, trust } = props`
    let src := lookupField props "src"
    let componentProps := lookupField props "props"
    let trust := lookupField props "trust"
    let componentId := childIdOf props parentId
    let placeholder : Val := placeholderOf componentId
    let runProps :=
      match componentProps with
      | some cp =>
        if truthy cp then
          serializeAny isWidget isComponent fuel
            (.props (some componentId) parentId (asFields cp) []) st
        else (.ok (.obj ([] : List (String × Val))), st)
      | none => (.ok (.obj ([] : List (String × Val))), st)
    match runProps with
    | (.ok p, st') =>
      (.ok (.obj [("child", .obj [("trust", trust.getD .null), ("props", p),
                                  ("source", src.getD .null),
                                  ("componentId", .str componentId)]),
                  ("placeholder", placeholder)]), st')
    | (.error (.thrown _), st') =>
      -- `catch (error) { console.warn(...) }`: the one child is dropped
      (.ok (.obj [("child", .null), ("placeholder", placeholder)]), st')
    | (.error .fuel, st') => (.error .fuel, st')

/-- `serializeNode` of the `composeSerializationMethods` module. -/
def serializeNode (isWidget isComponent : Nat → Bool) (fuel : Nat) (node : Val)
    (parentId : String) (st : SState) : Except SErr Val × SState :=
  serializeAny isWidget isComponent fuel (.node node parentId) st

/-- `serializeProps` of the `composeSerializationMethods` module. -/
def serializeProps (isWidget isComponent : Nat → Bool) (fuel : Nat)
    (componentId : Option String) (parentId : String) (props : List (String × Val))
    (st : SState) : Except SErr Val × SState :=
  serializeAny isWidget isComponent fuel (.props componentId parentId props []) st

/-- `serializeChildComponent` of the `composeSerializationMethods` module. -/
def serializeChildComponent (isWidget isComponent : Nat → Bool) (fuel : Nat)
    (parentId : String) (props : List (String × Val)) (st : SState) :
    Except SErr Val × SState :=
  serializeAny isWidget isComponent fuel (.child parentId props) st

end Compose

namespace Compose

/-- The entries of `props.__componentcallbacks || {}` as iterated by
`Object.entries` in `deserializeProps` (an absent or falsy marker object
contributes no entries). -/
def markerEntries (props : List (String × Val)) : List (String × Val) :=
  match lookupField props "__componentcallbacks" with
  | some (.obj es) => es
  | _ => []

/-- The `Object.entries(__componentcallbacks || {}).reduce(...)` loop of
`deserializeProps`: each `[methodName, { __componentMethod }]` entry either
throws on a truthy pre-existing prop of the same name, or binds
`methodName` to the rebuilt invocable function (a `Val.closure` capturing
the `__componentMethod` value; its behaviour is `componentCallback`). -/
def deserializeGo (componentId : String) (props : List (String × Val)) :
    List (String × Val) → List (String × Val) → Except String (List (String × Val))
  | [], acc => .ok acc
  | (methodName, marker) :: rest, acc =>
    -- `if (props[methodName]) throw new Error(...)`
    if truthy ((lookupField props methodName).getD .null) then
      .error ("'duplicate props key " ++ methodName ++ " on " ++ componentId ++ "'")
    else
      deserializeGo componentId props rest
        (setField acc methodName (.closure ((getProp marker "__componentMethod").getD .null)))

/-- `deserializeProps` (the logic is identical in both serialize modules):
strips `__componentcallbacks`, rebuilds one invocable function per marker
entry, and spreads the rebuilt callbacks over the remaining props. -/
def deserializeProps (componentId : String) (props : List (String × Val)) :
    Except String (List (String × Val)) :=
  let componentProps := eraseField props "__componentcallbacks"
  match deserializeGo componentId props (markerEntries props) [] with
  | .error e => .error e
  | .ok callbackFields => .ok (spread2 componentProps callbackFields)

/-- The parameter record handed to the `postCallbackInvocationMessage`
collaborator when a rebuilt callback fires. -/
structure InvocationMessage where
  args : List Val
  componentId : String
  method : Val
  requestId : String
  targetId : String

/-- Observable outcome of invoking a callback rebuilt by
`deserializeProps`: reported errors (`console.error`), the invocation
messages handed to the messaging collaborator, the RequestMap afterwards,
and the returned value (the pending request's promise, identified by its
request id; `none` models returning `undefined`). -/
structure InvokeResult where
  errors : List String
  invocations : List InvocationMessage
  requests : List (String × Unit)
  retVal : Option String

/-- `requests[requestId] = buildRequest()` (the pending-request record
itself is opaque to this core). -/
def setRequest : List (String × Unit) → String → List (String × Unit)
  | [], k => [(k, ())]
  | (k', u) :: rest, k => if k' = k then (k, ()) :: rest else (k', u) :: setRequest rest k

/-- The body of the function `deserializeProps` builds for a
`__componentcallbacks` entry, parameterized by the context it closes over
(`parentContainerId`, `componentId`, the captured `__componentMethod`) and
by the fresh `requestId` drawn from `window.crypto.randomUUID()`. -/
def componentCallback (parentContainerId : Option String) (componentId : String)
    (componentMethod : Val) (requestId : String) (requests : List (String × Unit))
    (args : List Val) : InvokeResult :=
  -- `if (!parentContainerId) { console.error(...); return }`
  if !strTruthy parentContainerId then
    { errors := ["Root Component cannot invoke method on parent"],
      invocations := [], requests := requests, retVal := none }
  else
    { errors := [],
      invocations := [{ args := args, componentId := componentId,
                        method := componentMethod, requestId := requestId,
                        targetId := parentContainerId.getD "" }],
      requests := setRequest requests requestId,
      retVal := some requestId }

/-- `serializeArgs` (identical in both modules): arrays and plain objects
recurse, falsy and primitive arguments pass through, and every function
argument is registered in the callbacks table under
`body.replace(/\\n/g, '') + '::' + componentId` and replaced by a
`{ __componentMethod }` marker.  Keys of an object argument are re-zipped
with the serialized values (`Object.fromEntries`). -/
def serializeArgs : Nat → List Val → List (String × Val) → String →
    Except SErr (List Val) × List (String × Val)
  | 0, _, cbs, _ => (.error .fuel, cbs)
  | _ + 1, [], cbs, _ => (.ok [], cbs)
  | fuel + 1, arg :: rest, cbs, componentId =>
    let one : Except SErr Val × List (String × Val) :=
      if !truthy arg then (.ok arg, cbs)
      else
        match arg with
        | .arr elems =>
          match serializeArgs fuel elems cbs componentId with
          | (.ok es, cbs1) => (.ok (.arr es), cbs1)
          | (.error e, cbs1) => (.error e, cbs1)
        | .obj fields =>
          match serializeArgs fuel (fields.map Prod.snd) cbs componentId with
          | (.ok vs, cbs1) => (.ok (.obj ((fields.map Prod.fst).zip vs)), cbs1)
          | (.error e, cbs1) => (.error e, cbs1)
        | .fn fid name body =>
          let fnKey := removeBackslashN body ++ "::" ++ componentId
          (.ok (.obj [("__componentMethod", .str fnKey)]),
           setField cbs fnKey (.fn fid name body))
        | .closure m =>
          let fnKey := removeBackslashN (jsToString (.closure m)) ++ "::" ++ componentId
          (.ok (.obj [("__componentMethod", .str fnKey)]),
           setField cbs fnKey (.closure m))
        | v => (.ok v, cbs)
    match one with
    | (.error e, cbs1) => (.error e, cbs1)
    | (.ok sv, cbs1) =>
      match serializeArgs fuel rest cbs1 componentId with
      | (.ok svs, cbs2) => (.ok (sv :: svs), cbs2)
      | (.error e, cbs2) => (.error e, cbs2)

end Compose

namespace Legacy

/-- Requests of the first serialize module (the one exporting
`serializeNode`/`serializeProps` directly): `node` is `serializeNode`,
`finish` its common final host-element return (reached by fall-through from
the fragment and builtin branches), `nodeList` the children-mapping loop
and `props` the `serializeProps` reduce loop. -/
inductive LReq where
  | node (node : Val) (parentId : String)
  | nodeList (children : List Val) (parentId : String)
  | props (componentId : Option String) (parentId : String)
      (entries : List (String × Val)) (acc : List (String × Val))
  | finish (typeStr : String) (props : List (String × Val))
      (children : List Val) (parentId : String)

/-- Fueled interpreter for the first serialize module.  Its external
collaborators are parameters: `builtins` is the `builtinComponents` table
(`name ↦ builtin` where `builtin(children, props)` rewrites to new props
and a type string, with the new children then read back from
`props.children || []`), `impls` gives the rendering behaviour of
pass-through component functions (`type(props)` for the function with
identity `fid`), `preactRoot` is `preactRootComponentName` and `decode`
the injected `decodeJsonString` method. -/
def serializeAny
    (builtins : String → Option (List Val → List (String × Val) → List (String × Val) × String))
    (impls : Nat → List (String × Val) → Val)
    (preactRoot : String) (decode : String → String) :
    Nat → LReq → SState → Except SErr Val × SState
  | 0, _, st => (.error .fuel, st)
  | fuel + 1, .node node parentId, st =>
    -- `if (!node || typeof node !== 'object') return node`
    if !truthy node || !isObjectType node then (.ok node, st)
    else
      let type? := getProp node "type"
      let s0 := match type? with | some (.str s) => s | _ => ""
      let childrenRaw : Val :=
        match getProp node "props" with
        | some p =>
          match getProp p "children" with
          | some c => if truthy c then c else .arr []
          | none => .arr []
        | none => .arr []
      let props0 : List (String × Val) :=
        match getProp node "props" with | some (.obj fs) => fs | _ => []
      let props := eraseField props0 "children"
      let unifiedChildren := match childrenRaw with | .arr es => es | v => [v]
      match collectChildComponents unifiedChildren with
      | .error e => (.error e, st)
      | .ok pushed =>
        let st1 : SState := { st with childComponents := st.childComponents ++ pushed }
        -- `if (!type) serializedElementType = 'div'`
        let s1 := if truthy (type?.getD .null) then s0 else "div"
        match type? with
        | some (.fn fid name _) =>
          if name = preactRoot then
            -- fragment/root marker renders as a generic container
            serializeAny builtins impls preactRoot decode fuel
              (.finish "div" props unifiedChildren parentId) st1
          else
            match builtins name with
            | some builtin =>
              -- `({props, type} = builtin({children, props}));
              --  unifiedChildren = props.children || []` (a non-array
              -- children value from a builtin is out of the modelled
              -- domain: `.flat()` would throw on it)
              let rewritten := builtin unifiedChildren props
              let newChildren :=
                match lookupField rewritten.1 "children" with
                | some (.arr es) => es
                | some v => if truthy v then [v] else []
                | none => []
              serializeAny builtins impls preactRoot decode fuel
                (.finish rewritten.2 rewritten.1 newChildren parentId) st1
            | none =>
              if name = "Widget" then
                let src := lookupField props "src"
                let componentProps := lookupField props "props"
                let trust := lookupField props "trust"
                let componentId := childIdOf props parentId
                let placeholder : Val := placeholderOf componentId
                let runProps :=
                  match componentProps with
                  | some cp =>
                    if truthy cp then
                      serializeAny builtins impls preactRoot decode fuel
                        (.props (some componentId) parentId (asFields cp) []) st1
                    else (.ok (.obj ([] : List (String × Val))), st1)
                  | none => (.ok (.obj ([] : List (String × Val))), st1)
                match runProps with
                | (.ok p, st2) =>
                  -- the push sits inside the `try`: it happens only when
                  -- prop serialization succeeded
                  (.ok placeholder,
                   { st2 with childComponents := st2.childComponents ++
                      [.obj [("trust", trust.getD .null), ("props", p),
                             ("source", src.getD .null),
                             ("componentId", .str componentId)]] })
                | (.error (.thrown _), st2) => (.ok placeholder, st2)
                | (.error .fuel, st2) => (.error .fuel, st2)
              else
                -- pass-through component function: invoke `type` with its
                -- own props plus an injected identity, and serialize the
                -- result in place with the same accumulator
                let instanceId := lookupField props "id"
                let src := lookupField props "src"
                let componentId := buildComponentId
                  (match instanceId with
                   | none => none | some .null => none | some v => some (jsToString v))
                  (jsJoinVal src) parentId
                let metaFields :=
                  match lookupField props "__bweMeta" with
                  | some (.obj fs) => fs | _ => []
                let injected := spread2 props
                  [("__bweMeta", .obj (spread2 metaFields [("componentId", .str componentId)])),
                   ("id", .str ("dom-" ++ componentId))]
                serializeAny builtins impls preactRoot decode fuel
                  (.node (impls fid injected) componentId) st1
        | some (.closure _) =>
          -- a rebuilt callback in `type` position never occurs in this
          -- module's input domain (closures exist only on the receiving
          -- side); its invocation is out of the modelled domain
          (.error (.thrown "closure in type position"), st1)
        | _ =>
          serializeAny builtins impls preactRoot decode fuel
            (.finish s1 props unifiedChildren parentId) st1
  | fuel + 1, .finish typeStr props children parentId, st =>
    match serializeAny builtins impls preactRoot decode fuel
        (.props none parentId props []) st with
    | (.error e, st1) => (.error e, st1)
    | (.ok sprops, st1) =>
      match serializeAny builtins impls preactRoot decode fuel
          (.nodeList (jsFlat children) parentId) st1 with
      | (.error e, st2) => (.error e, st2)
      | (.ok cs, st2) =>
        (.ok (.obj [("type", .str typeStr),
                    ("props", .obj (spread2 (asFields sprops)
                      [("children", .arr (asElems cs))])),
                    ("childComponents", .arr st2.childComponents)]), st2)
  | fuel + 1, .nodeList cs parentId, st =>
    match cs with
    | [] => (.ok (.arr []), st)
    | c :: rest =>
      let cRun :=
        if propsTruthy c then
          serializeAny builtins impls preactRoot decode fuel (.node c parentId) st
        else (.ok c, st)
      match cRun with
      | (.error e, st1) => (.error e, st1)
      | (.ok sc, st1) =>
        match serializeAny builtins impls preactRoot decode fuel (.nodeList rest parentId) st1 with
        | (.error e, st2) => (.error e, st2)
        | (.ok (.arr srest), st2) => (.ok (.arr (sc :: srest)), st2)
        | (.ok _, st2) => (.error (.thrown "impossible"), st2)
  | fuel + 1, .props componentId parentId entries acc, st =>
    match entries with
    | [] => (.ok (.obj acc), st)
    | (key, value) :: rest =>
      let isComp := isComponentCheck value
      let isFunction := match value with | .fn .. => true | .closure _ => true | _ => false
      let isProxy := isProxyCheck value
      if isFunction then
        let body := removeBackslashN (jsToString value)
        let fnKey := mkFnKey key (jsStrOr componentId body) parentId
        let st1 : SState := { st with callbacks := setField st.callbacks fnKey value }
        let acc' :=
          if strTruthy componentId then
            let cur := (lookupField acc "__componentcallbacks").getD .null
            let curFields := if truthy cur then (match cur with | .obj fs => fs | _ => []) else []
            setField acc "__componentcallbacks"
              (.obj (setField curFields key
                (.obj [("__componentMethod", .str fnKey), ("parentId", .str parentId)])))
          else
            let cur := (lookupField acc "__domcallbacks").getD .null
            let curFields := if truthy cur then (match cur with | .obj fs => fs | _ => []) else []
            setField acc "__domcallbacks"
              (.obj (setField curFields key (.obj [("__componentMethod", .str fnKey)])))
        serializeAny builtins impls preactRoot decode fuel
          (.props componentId parentId rest acc') st1
      else
        if isComp then
          match serializeAny builtins impls preactRoot decode fuel (.node value parentId)
                  { childComponents := [], callbacks := st.callbacks } with
          | (.ok sv, stInner) =>
            serializeAny builtins impls preactRoot decode fuel
              (.props componentId parentId rest (setField acc key sv))
              { childComponents := st.childComponents, callbacks := stInner.callbacks }
          | (.error e, stInner) =>
            (.error e, { childComponents := st.childComponents, callbacks := stInner.callbacks })
        else
          -- `else if (typeof value === 'string') serializedValue =
          --  decodeJsonString(serializedValue); else if (isProxy) {...copy}`
          -- (the proxy shallow copy is the identity on immutable values)
          let serializedValue :=
            match value with
            | .str s => Val.str (decode s)
            | v => if isProxy then v else v
          serializeAny builtins impls preactRoot decode fuel
            (.props componentId parentId rest (setField acc key serializedValue)) st

/-- `serializeNode` of the first serialize module. -/
def serializeNode
    (builtins : String → Option (List Val → List (String × Val) → List (String × Val) × String))
    (impls : Nat → List (String × Val) → Val) (preactRoot : String)
    (decode : String → String) (fuel : Nat) (node : Val) (parentId : String)
    (st : SState) : Except SErr Val × SState :=
  serializeAny builtins impls preactRoot decode fuel (.node node parentId) st

/-- `serializeProps` of the first serialize module. -/
def serializeProps
    (builtins : String → Option (List Val → List (String × Val) → List (String × Val) × String))
    (impls : Nat → List (String × Val) → Val) (preactRoot : String)
    (decode : String → String) (fuel : Nat) (componentId : Option String)
    (parentId : String) (props : List (String × Val)) (st : SState) :
    Except SErr Val × SState :=
  serializeAny builtins impls preactRoot decode fuel (.props componentId parentId props []) st

end Legacy

/-!
## The rendered-tree input domain

`PTree` is the domain of trees the rendering library hands to
`serializeNode`: text leaves, host elements (vnodes with a string `type`, a
props object and a children array) and nested-component markers (vnodes
whose `type` is a component function carrying `id`/`src`/`props`/`trust`).
`PTree.toVal` embeds such a tree as the corresponding JS value.
-/

inductive PTree where
  | text (s : String)
  | elem (tag : String) (props : List (String × Val)) (children : List PTree)
  | marker (fid : Nat) (name : String) (body : String) (instanceId : Option String)
      (src : String) (componentProps : List (String × Val)) (trust : Val)

mutual

/-- The vnode corresponding to a rendered tree.  An element's `children`
live under its props, and any stray `children` key among the remaining
props is dropped (a vnode carries its children only there); a marker's
props carry `id` (when given), `src`, `props` and `trust`. -/
def PTree.toVal : PTree → Val
  | .text s => .str s
  | .elem tag props children =>
    .obj [("type", .str tag),
          ("props", .obj (("children", .arr (PTree.toValList children)) ::
            eraseField props "children"))]
  | .marker fid name body instanceId src componentProps trust =>
    .obj [("type", .fn fid name body),
          ("props", .obj ((match instanceId with
                           | some i => [("id", Val.str i)]
                           | none => []) ++
            [("src", .str src), ("props", .obj componentProps), ("trust", trust)]))]

/-- Pointwise embedding of a children list. -/
def PTree.toValList : List PTree → List Val
  | [] => []
  | t :: ts => t.toVal :: PTree.toValList ts

end

mutual

/-- Number of nested-component markers hanging off the children chain of a
rendered tree (markers inside another marker's `props` are serialized into
that marker's own metadata, not the shared accumulator). -/
def markerCount : PTree → Nat
  | .text _ => 0
  | .elem _ _ children => markerCountList children
  | .marker .. => 1

/-- Total marker count of a children list. -/
def markerCountList : List PTree → Nat
  | [] => 0
  | t :: ts => markerCount t + markerCountList ts

end

mutual

/-- A rendered tree whose markers declare only component props that the
prop codec serializes without recursing into `serializeNode` (no value of
a marker's `props` object passes the rendered-node duck-type check).  This
rules out the one way `serializeChildComponent`'s metadata construction
can throw. -/
def safeMarkers : PTree → Bool
  | .text _ => true
  | .elem _ _ children => safeMarkersList children
  | .marker _ _ _ _ _ componentProps _ =>
    componentProps.all (fun kv => !isComponentCheck kv.2)

/-- `safeMarkers` over a children list. -/
def safeMarkersList : List PTree → Bool
  | [] => true
  | t :: ts => safeMarkers t && safeMarkersList ts

end

/-- The children array of a serialized host node: `node.props.children`. -/
def childrenOf (fields : List (String × Val)) : List Val :=
  match lookupField fields "props" with
  | some p =>
    match getProp p "children" with
    | some (.arr es) => es
    | some v => [v]
    | none => []
  | none => []

/-- A host-only serialized tree: every object node in the tree (the root
and, recursively, everything in its `props.children` array) carries a
string `type`; non-object values are leaves. -/
inductive HostVal : Val → Prop where
  | leaf : ∀ v, (∀ fs, v ≠ Val.obj fs) → HostVal v
  | node : ∀ fs t, lookupField fs "type" = some (Val.str t) →
      (∀ c ∈ childrenOf fs, HostVal c) → HostVal (Val.obj fs)

/-!
## Theorems

General lemmas first, then one theorem per claim (with counterexamples and
witnesses where required).
-/

/-- Splitting at a separator character is unambiguous when the prefix on
both sides is free of that character. -/
theorem append_sep_inj {sep : Char} :
    ∀ a a' t t' : List Char, (∀ x ∈ a, x ≠ sep) → (∀ x ∈ a', x ≠ sep) →
      a ++ sep :: t = a' ++ sep :: t' → a = a' ∧ t = t' := by
  intro a
  induction a with
  | nil =>
    intro a' t t' _ ha' h
    cases a' with
    | nil => simp_all
    | cons y ys =>
      exfalso
      simp only [List.nil_append, List.cons_append, List.cons.injEq] at h
      exact ha' y (by simp) h.1.symm
  | cons x xs ih =>
    intro a' t t' ha ha' h
    cases a' with
    | nil =>
      exfalso
      simp only [List.cons_append, List.nil_append, List.cons.injEq] at h
      exact ha x (by simp) h.1
    | cons y ys =>
      simp only [List.cons_append, List.cons.injEq] at h
      obtain ⟨hxy, hrest⟩ := h
      obtain ⟨h1, h2⟩ := ih ys t t'
        (fun z hz => ha z (by simp [hz])) (fun z hz => ha' z (by simp [hz])) hrest
      exact ⟨by simp [hxy, h1], h2⟩

/-- Double-separator version of `append_sep_inj`. -/
theorem append_sep2_inj {sep : Char} (a a' t t' : List Char)
    (ha : ∀ x ∈ a, x ≠ sep) (ha' : ∀ x ∈ a', x ≠ sep)
    (h : a ++ sep :: sep :: t = a' ++ sep :: sep :: t') : a = a' ∧ t = t' := by
  have h2 := append_sep_inj a a' (sep :: t) (sep :: t') ha ha' h
  exact ⟨h2.1, by simpa using h2.2⟩

/-- Unfolding of the three-component `join('##')`. -/
theorem buildComponentId_data (i p par : String) :
    (buildComponentId (some i) p par).data =
      p.data ++ '#' :: '#' :: (i.data ++ '#' :: '#' :: par.data) := by
  show (p ++ "##" ++ i ++ "##" ++ par).data = _
  simp [List.append_assoc]

/-- Claim C3, counterexample: `buildComponentId` is not injective on raw
triples — the `##` separator can be smuggled inside a component, so two
triples differing in `componentPath` (and `instanceId`) collide on the
same id `"a##b##c##p"`. -/
theorem c3_counterexample :
    buildComponentId (some "b##c") "a" "p" = buildComponentId (some "c") "a##b" "p" ∧
      ("a" : String) ≠ "a##b" := ⟨rfl, by decide⟩

/-- Claim C3 (amended): `buildComponentId` is a pure deterministic function
of `(componentPath, instanceId, parentComponentId)`; it is injective on
triples whose `componentPath` and present `instanceId` are free of the
separator character `#` (the trailing `parentComponentId` may itself
contain `##`, as real parent ids do).  Without that restriction — or with
an absent `instanceId`, which is rendered exactly like the empty string —
distinct triples can collide, as `c3_counterexample` shows. -/
theorem c3_buildComponentId_deterministic_injective
    (p1 i1 par1 p2 i2 par2 : String)
    (hp1 : ∀ c ∈ p1.data, c ≠ '#') (hp2 : ∀ c ∈ p2.data, c ≠ '#')
    (hi1 : ∀ c ∈ i1.data, c ≠ '#') (hi2 : ∀ c ∈ i2.data, c ≠ '#') :
    buildComponentId (some i1) p1 par1 = buildComponentId (some i2) p2 par2 ↔
      i1 = i2 ∧ p1 = p2 ∧ par1 = par2 := by
  constructor
  · intro h
    have hd : (buildComponentId (some i1) p1 par1).data =
        (buildComponentId (some i2) p2 par2).data := by rw [h]
    rw [buildComponentId_data, buildComponentId_data] at hd
    obtain ⟨hp, hrest⟩ := append_sep2_inj _ _ _ _ hp1 hp2 hd
    obtain ⟨hi, hpar⟩ := append_sep2_inj _ _ _ _ hi1 hi2 hrest
    exact ⟨String.ext hi, String.ext hp, String.ext hpar⟩
  · rintro ⟨rfl, rfl, rfl⟩
    rfl

/-- Witness for C3 at a concrete hash-free path and instance ids under a
parent id that itself contains `##`. -/
theorem c3_witness :
    buildComponentId (some "x") "a.near/Widget" "root##a##b" =
        buildComponentId (some "y") "a.near/Widget" "root##a##b" ↔
      ("x" : String) = "y" ∧ ("a.near/Widget" : String) = "a.near/Widget" ∧
        ("root##a##b" : String) = "root##a##b" :=
  c3_buildComponentId_deterministic_injective
    "a.near/Widget" "x" "root##a##b" "a.near/Widget" "y" "root##a##b"
    (by decide) (by decide) (by decide) (by decide)

/-- Claim C8, counterexample: the round trip fails on a string that
contains a newline but also already contains the private-use code point
U+2063 used to encode newlines — both decode back to `\n`. -/
theorem c8_counterexample :
    '\n' ∈ ("\n\u2063" : String).data ∧
      decodeJsonString (encodeJsonString "\n\u2063") ≠ "\n\u2063" := by
  refine ⟨by decide, ?_⟩
  show ("\n\n" : String) ≠ "\n\u2063"
  decide

/-- Claim C8 (amended): `decodeJsonString` inverts `encodeJsonString` on
every string free of the two private-use code points U+2063 and U+2064
(in particular on any ordinary text containing newlines or tabs); strings
already containing those code points are not round-tripped, as
`c8_counterexample` shows. -/
theorem c8_roundtrip (s : String)
    (h : ∀ c ∈ s.data, c ≠ invisibleSeparator ∧ c ≠ invisiblePlus) :
    decodeJsonString (encodeJsonString s) = s := by
  by_cases hs : s = ""
  · subst hs; rfl
  · rw [encodeJsonString, if_neg hs]
    set l := ((s.data.map (fun c => if c = '\n' then invisibleSeparator else c)).map
      (fun c => if c = '\t' then invisiblePlus else c)) with hl
    have hne : ¬(String.mk l = "") := by
      intro he
      apply hs
      have hdata : l = [] := congrArg String.data he
      have hsd : s.data = [] := by
        have hlen := congrArg List.length hdata
        simp [hl] at hlen
        exact List.eq_nil_of_length_eq_zero hlen
      exact String.ext hsd
    rw [decodeJsonString, if_neg hne]
    apply String.ext
    show ((l.map _).map _) = s.data
    rw [hl]
    simp only [List.map_map]
    have hpt : ∀ c ∈ s.data,
        ((fun c => if c = invisiblePlus then '\t' else c) ∘
         (fun c => if c = invisibleSeparator then '\n' else c) ∘
         (fun c => if c = '\t' then invisiblePlus else c) ∘
         (fun c => if c = '\n' then invisibleSeparator else c)) c = c := by
      intro c hc
      obtain ⟨hc1, hc2⟩ := h c hc
      by_cases hcn : c = '\n' <;> by_cases hct : c = '\t' <;>
        simp_all [invisibleSeparator, invisiblePlus, Function.comp]
    rw [List.map_congr_left hpt]
    simp

/-- Witness for C8 on a concrete string containing a newline and a tab. -/
theorem c8_witness :
    decodeJsonString (encodeJsonString "a\nb\tc") = "a\nb\tc" :=
  c8_roundtrip "a\nb\tc" (by decide)

/-- Key lookup after a JS property assignment. -/
theorem lookupField_setField (fs : List (String × Val)) (k k' : String) (v : Val) :
    lookupField (setField fs k' v) k = if k' = k then some v else lookupField fs k := by
  induction fs with
  | nil => simp [setField, lookupField]
  | cons kv rest ih =>
    obtain ⟨k0, v0⟩ := kv
    by_cases h0 : k0 = k'
    · subst h0
      by_cases hk : k0 = k <;> simp [setField, lookupField, hk]
    · by_cases hk : k0 = k
      · subst hk
        have hne : ¬k' = k0 := fun hh => h0 hh.symm
        simp [setField, lookupField, h0, hne]
      · simp [setField, lookupField, h0, hk, ih]

/-- Lookup misses when the key is absent. -/
theorem lookupField_eq_none_of_not_mem (fs : List (String × Val)) (k : String)
    (h : k ∉ fs.map Prod.fst) : lookupField fs k = none := by
  induction fs with
  | nil => rfl
  | cons kv rest ih =>
    obtain ⟨k0, v0⟩ := kv
    simp only [List.map_cons, List.mem_cons] at h
    push_neg at h
    simp [lookupField, Ne.symm h.1, ih h.2]

/-- Assignment only ever appends the assigned key. -/
theorem setField_keys (fs : List (String × Val)) (k : String) (v : Val) :
    (setField fs k v).map Prod.fst =
      if k ∈ fs.map Prod.fst then fs.map Prod.fst else fs.map Prod.fst ++ [k] := by
  induction fs with
  | nil => simp [setField]
  | cons kv rest ih =>
    obtain ⟨k0, v0⟩ := kv
    by_cases h0 : k0 = k
    · subst h0; simp [setField]
    · simp only [setField, if_neg h0, List.map_cons, ih]
      by_cases hm : k ∈ rest.map Prod.fst <;>
        simp [hm, Ne.symm h0]

/-- Assignment preserves key uniqueness. -/
theorem setField_keys_nodup (fs : List (String × Val)) (k : String) (v : Val)
    (h : (fs.map Prod.fst).Nodup) : ((setField fs k v).map Prod.fst).Nodup := by
  rw [setField_keys]
  split
  · exact h
  · rename_i hm
    simp [List.nodup_append, h, hm]

/-- Lookup through an object spread `{...a, ...b}` (for `b` with unique
keys): entries of `b` win, the rest falls back to `a`. -/
theorem lookupField_spread2 (b : List (String × Val)) (hnd : (b.map Prod.fst).Nodup) :
    ∀ (a : List (String × Val)) (k : String),
      lookupField (spread2 a b) k =
        match lookupField b k with
        | some v => some v
        | none => lookupField a k := by
  induction b with
  | nil => intro a k; simp [spread2, lookupField]
  | cons kv rest ih =>
    intro a k
    obtain ⟨k0, v0⟩ := kv
    simp only [List.map_cons, List.nodup_cons] at hnd
    have hstep : spread2 a ((k0, v0) :: rest) = spread2 (setField a k0 v0) rest := rfl
    rw [hstep, ih hnd.2]
    by_cases hk : k0 = k
    · subst hk
      have hr : lookupField rest k0 = none :=
        lookupField_eq_none_of_not_mem _ _ hnd.1
      simp [hr, lookupField, lookupField_setField]
    · simp [lookupField, hk, lookupField_setField]

/-- `delete` leaves other keys alone. -/
theorem lookupField_eraseField_ne (fs : List (String × Val)) (k k' : String)
    (h : k ≠ k') : lookupField (eraseField fs k') k = lookupField fs k := by
  induction fs with
  | nil => rfl
  | cons kv rest ih =>
    obtain ⟨k0, v0⟩ := kv
    by_cases h0 : k0 = k'
    · subst h0
      simp [eraseField, lookupField, Ne.symm h, ih]
    · by_cases hk : k0 = k <;> simp [eraseField, lookupField, h0, hk, h, ih]

/-- `delete` removes the key. -/
theorem lookupField_eraseField_self (fs : List (String × Val)) (k : String) :
    lookupField (eraseField fs k) k = none := by
  induction fs with
  | nil => rfl
  | cons kv rest ih =>
    obtain ⟨k0, v0⟩ := kv
    by_cases h0 : k0 = k <;> simp [eraseField, lookupField, h0, ih]

/-- The `deserializeProps` reduce loop throws exactly when some marker
entry's method name already names a truthy prop (the check reads the
original `props` object, so it is independent of the accumulator). -/
theorem deserializeGo_error_iff (cid : String) (props : List (String × Val)) :
    ∀ (ms acc : List (String × Val)),
      (∃ e, Compose.deserializeGo cid props ms acc = .error e) ↔
        ∃ m ∈ ms, truthy ((lookupField props m.1).getD .null) = true := by
  intro ms
  induction ms with
  | nil => intro acc; simp [Compose.deserializeGo]
  | cons m rest ih =>
    intro acc
    obtain ⟨mk, mv⟩ := m
    by_cases h : truthy ((lookupField props mk).getD .null) = true
    · simp [Compose.deserializeGo, h]
    · simp [Compose.deserializeGo, h, ih]

/-- Keys not named by any marker entry come out of the reduce loop as they
went in. -/
theorem deserializeGo_ok_lookup (cid : String) (props : List (String × Val)) :
    ∀ ms acc out, Compose.deserializeGo cid props ms acc = .ok out →
      ∀ k, (∀ m ∈ ms, m.1 ≠ k) → lookupField out k = lookupField acc k := by
  intro ms
  induction ms with
  | nil =>
    intro acc out h k _
    simp [Compose.deserializeGo] at h
    subst h; rfl
  | cons m rest ih =>
    intro acc out h k hk
    obtain ⟨mk, mv⟩ := m
    by_cases ht : truthy ((lookupField props mk).getD .null) = true
    · simp [Compose.deserializeGo, ht] at h
    · simp only [Compose.deserializeGo, if_neg ht] at h
      rw [ih _ _ h k (fun m hm => hk m (List.mem_cons_of_mem _ hm))]
      rw [lookupField_setField]
      have hne : ¬mk = k := hk (mk, mv) (by simp)
      simp [hne]

/-- A key named by a marker entry (or already bound to a rebuilt callback)
comes out of the reduce loop bound to a rebuilt callback. -/
theorem deserializeGo_ok_closure (cid : String) (props : List (String × Val)) :
    ∀ ms acc out, Compose.deserializeGo cid props ms acc = .ok out →
      ∀ k, ((∃ m0, lookupField acc k = some (.closure m0)) ∨ (∃ mv, (k, mv) ∈ ms)) →
        ∃ meth, lookupField out k = some (.closure meth) := by
  intro ms
  induction ms with
  | nil =>
    intro acc out h k hc
    simp [Compose.deserializeGo] at h
    subst h
    rcases hc with ⟨m0, hm⟩ | ⟨mv, hm⟩
    · exact ⟨m0, hm⟩
    · simp at hm
  | cons m rest ih =>
    intro acc out h k hc
    obtain ⟨mk, mv'⟩ := m
    by_cases ht : truthy ((lookupField props mk).getD .null) = true
    · simp [Compose.deserializeGo, ht] at h
    · simp only [Compose.deserializeGo, if_neg ht] at h
      apply ih _ _ h
      by_cases hk : mk = k
      · subst hk
        refine Or.inl ⟨(getProp mv' "__componentMethod").getD Val.null, ?_⟩
        rw [lookupField_setField]
        simp
      · rcases hc with ⟨m0, hm⟩ | ⟨mv2, hm⟩
        · exact Or.inl ⟨m0, by rw [lookupField_setField]; simp [hk, hm]⟩
        · rcases List.mem_cons.mp hm with heq | hmem
          · exact absurd (congrArg Prod.fst heq).symm hk
          · exact Or.inr ⟨mv2, hmem⟩

/-- The reduce loop keeps the accumulator's keys unique. -/
theorem deserializeGo_ok_nodup (cid : String) (props : List (String × Val)) :
    ∀ ms acc out, Compose.deserializeGo cid props ms acc = .ok out →
      (acc.map Prod.fst).Nodup → (out.map Prod.fst).Nodup := by
  intro ms
  induction ms with
  | nil =>
    intro acc out h hnd
    simp [Compose.deserializeGo] at h
    subst h; exact hnd
  | cons m rest ih =>
    intro acc out h hnd
    obtain ⟨mk, mv⟩ := m
    by_cases ht : truthy ((lookupField props mk).getD .null) = true
    · simp [Compose.deserializeGo, ht] at h
    · simp only [Compose.deserializeGo, if_neg ht] at h
      exact ih _ _ h (setField_keys_nodup _ _ _ hnd)

/-- Claim C5, counterexample: a key that appears both as a plain prop and
as a `__componentcallbacks` marker entry does NOT make `deserializeProps`
throw when the plain value is falsy — the guard is `if (props[methodName])`
(truthiness), not a key-presence check, so `onClick: false` colliding with
a declared `onClick` callback deserializes without error. -/
theorem c5_counterexample :
    (lookupField [("onClick", Val.bool false),
        ("__componentcallbacks", Val.obj [("onClick",
          Val.obj [("__componentMethod", Val.str "k"), ("parentId", Val.str "par")])])]
      "onClick") = some (Val.bool false) ∧
    (lookupField (Compose.markerEntries [("onClick", Val.bool false),
        ("__componentcallbacks", Val.obj [("onClick",
          Val.obj [("__componentMethod", Val.str "k"), ("parentId", Val.str "par")])])])
      "onClick").isSome = true ∧
    (Compose.deserializeProps "comp" [("onClick", Val.bool false),
        ("__componentcallbacks", Val.obj [("onClick",
          Val.obj [("__componentMethod", Val.str "k"), ("parentId", Val.str "par")])])]).isOk
      = true := ⟨rfl, rfl, rfl⟩

/-- Claim C5 (amended): `deserializeProps` throws synchronously exactly
when some `__componentcallbacks` entry's method name already names a
TRUTHY plain prop on the same component; when no marker key has a truthy
plain entry (in particular, when there is no shared key at all) it does
not throw.  A shared key whose plain value is falsy slips through, as
`c5_counterexample` shows. -/
theorem c5_duplicate_key_throw_iff (cid : String) (props : List (String × Val)) :
    (∃ e, Compose.deserializeProps cid props = .error e) ↔
      ∃ m ∈ Compose.markerEntries props, truthy ((lookupField props m.1).getD .null) = true := by
  rw [← deserializeGo_error_iff cid props (Compose.markerEntries props) []]
  unfold Compose.deserializeProps
  cases h : Compose.deserializeGo cid props (Compose.markerEntries props) [] <;> simp [h]

/-- Claim C10, counterexample: the plain entry `onClick: false` shares its
key with a `__componentcallbacks` marker; `deserializeProps` succeeds (the
falsy value defeats the duplicate guard) and the result binds `onClick` to
the rebuilt callback — the plain entry is NOT left unchanged. -/
theorem c10_counterexample :
    Compose.deserializeProps "comp" [("onClick", Val.bool false),
        ("__componentcallbacks", Val.obj [("onClick",
          Val.obj [("__componentMethod", Val.str "k2"), ("parentId", Val.str "par")])])] =
      .ok [("onClick", Val.closure (Val.str "k2"))] ∧
    lookupField [("onClick", Val.bool false),
        ("__componentcallbacks", Val.obj [("onClick",
          Val.obj [("__componentMethod", Val.str "k2"), ("parentId", Val.str "par")])])]
      "onClick" = some (Val.bool false) := ⟨rfl, rfl⟩

/-- Claim C10 (amended): when `deserializeProps` returns, every entry whose
key is neither `__componentcallbacks` nor the method name of some marker
entry reads exactly as in the input (in particular `__domcallbacks` markers
pass through untouched), the `__componentcallbacks` key is absent from the
result, and every marker's method name is bound to a rebuilt invocable
callback.  An entry sharing its key with a marker is overwritten by the
rebuilt callback (possible only for falsy values, which evade the duplicate
guard), as `c10_counterexample` shows. -/
theorem c10_frame (cid : String) (props res : List (String × Val))
    (h : Compose.deserializeProps cid props = .ok res) :
    (∀ k, k ≠ "__componentcallbacks" →
        (∀ m ∈ Compose.markerEntries props, m.1 ≠ k) →
        lookupField res k = lookupField props k) ∧
    lookupField res "__componentcallbacks" = none ∧
    (∀ m ∈ Compose.markerEntries props, ∃ meth, lookupField res m.1 = some (.closure meth)) := by
  unfold Compose.deserializeProps at h
  cases hgo : Compose.deserializeGo cid props (Compose.markerEntries props) [] with
  | error e => rw [hgo] at h; cases h
  | ok cbf =>
    rw [hgo] at h
    simp only [Except.ok.injEq] at h
    subst h
    have hnd : (cbf.map Prod.fst).Nodup :=
      deserializeGo_ok_nodup cid props _ _ _ hgo (by simp)
    have hnothrow : ∀ m ∈ Compose.markerEntries props,
        ¬truthy ((lookupField props m.1).getD .null) = true := by
      have hne : ¬∃ e, Compose.deserializeGo cid props (Compose.markerEntries props) []
          = .error e := by
        rw [hgo]; simp
      rw [deserializeGo_error_iff] at hne
      push_neg at hne
      simpa using hne
    refine ⟨?_, ?_, ?_⟩
    · intro k hk hms
      rw [lookupField_spread2 _ hnd]
      rw [deserializeGo_ok_lookup cid props _ _ _ hgo k hms]
      simp [lookupField]
      exact lookupField_eraseField_ne _ _ _ hk
    · have hccnotin : ∀ m ∈ Compose.markerEntries props, m.1 ≠ "__componentcallbacks" := by
        intro m hm heq
        apply hnothrow m hm
        rw [heq]
        unfold Compose.markerEntries at hm
        cases hcc : lookupField props "__componentcallbacks" with
        | none => rw [hcc] at hm; simp at hm
        | some v =>
          rw [hcc] at hm
          cases v <;> simp_all [truthy]
      rw [lookupField_spread2 _ hnd]
      rw [deserializeGo_ok_lookup cid props _ _ _ hgo _ hccnotin]
      simp [lookupField]
      exact lookupField_eraseField_self _ _
    · intro m hm
      obtain ⟨meth, hmeth⟩ := deserializeGo_ok_closure cid props _ _ _ hgo m.1
        (Or.inr ⟨m.2, by simpa using hm⟩)
      refine ⟨meth, ?_⟩
      rw [lookupField_spread2 _ hnd, hmeth]

/-- Witness for C10 on props carrying a plain value, a `__domcallbacks`
marker and one `__componentcallbacks` entry. -/
theorem c10_witness :
    (∀ k, k ≠ "__componentcallbacks" →
        (∀ m ∈ Compose.markerEntries [("color", Val.str "red"),
            ("__domcallbacks", Val.obj [("onHover", Val.obj [("__componentMethod", Val.str "dk")])]),
            ("__componentcallbacks", Val.obj [("onClick",
              Val.obj [("__componentMethod", Val.str "ck"), ("parentId", Val.str "par")])])],
          m.1 ≠ k) →
        lookupField [("color", Val.str "red"),
            ("__domcallbacks", Val.obj [("onHover", Val.obj [("__componentMethod", Val.str "dk")])]),
            ("onClick", Val.closure (Val.str "ck"))] k =
          lookupField [("color", Val.str "red"),
            ("__domcallbacks", Val.obj [("onHover", Val.obj [("__componentMethod", Val.str "dk")])]),
            ("__componentcallbacks", Val.obj [("onClick",
              Val.obj [("__componentMethod", Val.str "ck"), ("parentId", Val.str "par")])])] k) ∧
    lookupField [("color", Val.str "red"),
        ("__domcallbacks", Val.obj [("onHover", Val.obj [("__componentMethod", Val.str "dk")])]),
        ("onClick", Val.closure (Val.str "ck"))] "__componentcallbacks" = none ∧
    (∀ m ∈ Compose.markerEntries [("color", Val.str "red"),
        ("__domcallbacks", Val.obj [("onHover", Val.obj [("__componentMethod", Val.str "dk")])]),
        ("__componentcallbacks", Val.obj [("onClick",
          Val.obj [("__componentMethod", Val.str "ck"), ("parentId", Val.str "par")])])],
      ∃ meth, lookupField [("color", Val.str "red"),
          ("__domcallbacks", Val.obj [("onHover", Val.obj [("__componentMethod", Val.str "dk")])]),
          ("onClick", Val.closure (Val.str "ck"))] m.1 = some (.closure meth)) :=
  c10_frame "comp"
    [("color", Val.str "red"),
     ("__domcallbacks", Val.obj [("onHover", Val.obj [("__componentMethod", Val.str "dk")])]),
     ("__componentcallbacks", Val.obj [("onClick",
       Val.obj [("__componentMethod", Val.str "ck"), ("parentId", Val.str "par")])])]
    [("color", Val.str "red"),
     ("__domcallbacks", Val.obj [("onHover", Val.obj [("__componentMethod", Val.str "dk")])]),
     ("onClick", Val.closure (Val.str "ck"))]
    rfl

/-- Claim C4: a callback rebuilt by `deserializeProps`, invoked in a
context whose `parentContainerId` is null (a root component), reports the
error `Root Component cannot invoke method on parent`, posts no
callback-invocation envelope, leaves the RequestMap untouched, and returns
normally (`undefined`) rather than throwing. -/
theorem c4_root_callback_reported (cid : String) (props res : List (String × Val))
    (k : String) (m : Val) (reqId : String) (requests : List (String × Unit)) (args : List Val)
    (_hres : Compose.deserializeProps cid props = .ok res)
    (_hk : lookupField res k = some (.closure m)) :
    Compose.componentCallback none cid m reqId requests args =
      { errors := ["Root Component cannot invoke method on parent"],
        invocations := [], requests := requests, retVal := none } := rfl

/-- Witness for C4 on a concrete deserialized `onClick` callback. -/
theorem c4_witness :
    Compose.componentCallback none "child##x##root" (Val.str "onClick::child##x##root::root")
        "req-1" [] [Val.num 1, Val.str "two"] =
      { errors := ["Root Component cannot invoke method on parent"],
        invocations := [], requests := [], retVal := none } :=
  c4_root_callback_reported "child##x##root"
    [("__componentcallbacks", Val.obj [("onClick",
       Val.obj [("__componentMethod", Val.str "onClick::child##x##root::root"),
                ("parentId", Val.str "root")])])]
    [("onClick", Val.closure (Val.str "onClick::child##x##root::root"))]
    "onClick" (Val.str "onClick::child##x##root::root") "req-1" [] [Val.num 1, Val.str "two"]
    rfl rfl

/-- Claim C2, counterexample: two distinct function values (identities 1
and 2) with the same source text, attached under the same prop key on two
sibling host elements, are registered under the SAME `fnKey` — the second
registration overwrites the first, so the CallbackMap ends the tree walk
with a single entry holding only the second function. -/
theorem c2_counterexample :
    (Compose.serializeAny (fun _ => false) (fun _ => false) 10
        (.node (.obj [("type", .str "div"),
          ("props", .obj [("children", .arr [
             .obj [("type", .str "button"),
                   ("props", .obj [("onClick", .fn 1 "" "() => setState(1)")])],
             .obj [("type", .str "button"),
                   ("props", .obj [("onClick", .fn 2 "" "() => setState(1)")])]])])])
          "par") ⟨[], []⟩).2.callbacks =
      [("onClick::() => setState(1)::par", .fn 2 "" "() => setState(1)")] := rfl

/-- Claim C2 (amended): a function prop is registered under
`[key, componentId || functionBodyText, parentId].join('::')`, a function
argument under `functionBodyText + '::' + componentId`, and the
`serializeProps` key construction is injective when the key and the
middle (owning component id, or body text for non-component callers)
contain no `:` character at all — mere absence of the full `::` substring
does not suffice, since a trailing `:` on the key merges with the
separator.  Distinct function VALUES are not
always distinguished: two different closures with identical source text
under the same key and parent share a key, as `c2_counterexample` shows. -/
theorem c2_fnKey_construction :
    (∀ (iw ic : Nat → Bool) (fuel : Nat) (cid : Option String) (pid key name body : String)
        (fid : Nat) (rest acc : List (String × Val)) (st : SState), ∃ acc',
        Compose.serializeAny iw ic (fuel + 1)
            (.props cid pid ((key, .fn fid name body) :: rest) acc) st =
          Compose.serializeAny iw ic fuel (.props cid pid rest acc')
            { st with callbacks := setField st.callbacks (mkFnKey key (jsStrOr cid (removeBackslashN body)) pid) (.fn fid name body) }) ∧
    (∀ (fuel fid : Nat) (name body cid : String) (cbs : List (String × Val)),
        Compose.serializeArgs (fuel + 2) [.fn fid name body] cbs cid =
          (.ok [.obj [("__componentMethod", .str (removeBackslashN body ++ "::" ++ cid))]],
           setField cbs (removeBackslashN body ++ "::" ++ cid) (.fn fid name body))) ∧
    (∀ k1 m1 p1 k2 m2 p2 : String,
        (∀ c ∈ k1.data, c ≠ ':') → (∀ c ∈ k2.data, c ≠ ':') →
        (∀ c ∈ m1.data, c ≠ ':') → (∀ c ∈ m2.data, c ≠ ':') →
        (mkFnKey k1 m1 p1 = mkFnKey k2 m2 p2 ↔ k1 = k2 ∧ m1 = m2 ∧ p1 = p2)) := by
  refine ⟨?_, ?_, ?_⟩
  · intro iw ic fuel cid pid key name body fid rest acc st
    exact ⟨_, rfl⟩
  · intro fuel fid name body cid cbs
    rfl
  · intro k1 m1 p1 k2 m2 p2 hk1 hk2 hm1 hm2
    constructor
    · intro h
      have hd : (mkFnKey k1 m1 p1).data = (mkFnKey k2 m2 p2).data := by rw [h]
      have hshape : ∀ k m p : String, (mkFnKey k m p).data =
          k.data ++ ':' :: ':' :: (m.data ++ ':' :: ':' :: p.data) := by
        intro k m p
        show (k ++ "::" ++ m ++ "::" ++ p).data = _
        simp [List.append_assoc]
      rw [hshape, hshape] at hd
      obtain ⟨hk, hrest⟩ := append_sep2_inj _ _ _ _ hk1 hk2 hd
      obtain ⟨hm, hp⟩ := append_sep2_inj _ _ _ _ hm1 hm2 hrest
      exact ⟨String.ext hk, String.ext hm, String.ext hp⟩
    · rintro ⟨rfl, rfl, rfl⟩
      rfl

/-- Witness for C2 at concrete separator-free keys and component ids. -/
theorem c2_witness :
    mkFnKey "onClick" "child##x##root" "root" = mkFnKey "onClick" "child##y##root" "root" ↔
      ("onClick" : String) = "onClick" ∧ ("child##x##root" : String) = "child##y##root" ∧
        ("root" : String) = "root" :=
  c2_fnKey_construction.2.2 "onClick" "child##x##root" "root" "onClick" "child##y##root" "root"
    (by decide) (by decide) (by decide) (by decide)

/-- Claim C7, counterexample: on the sending side the legacy
`serializeProps` maps the string prop `"a⁣b"` (containing the
private-use encoded newline) to `"a\nb"` — that is, it applies
`decodeJsonString`, not `encodeJsonString`, to string props. -/
theorem c7_counterexample :
    (Legacy.serializeAny (fun _ => none) (fun _ _ => .null) "Frag" decodeJsonString 3
        (.props none "par" [("msg", .str "a⁣b")] []) ⟨[], []⟩).1 =
      .ok (.obj [("msg", .str "a\nb")]) ∧
    ("a\nb" : String) ≠ encodeJsonString "a⁣b" ∧
    ("a\nb" : String) ≠ "a⁣b" := by
  refine ⟨rfl, ?_, by decide⟩
  show ("a\nb" : String) ≠ encodeJsonString "a⁣b"
  decide

/-- Claim C7 (amended): while serializing props, a string-valued
(non-function, non-node) prop is passed through the injected
`decodeJsonString` — the INVERSE of the whitespace-escaping transform —
by the legacy `serializeProps` (strings arrive at the serializer already
encoded, having been embedded in transpiled source, and are decoded before
transport); the current `serializeProps` of the compose module applies no
transform to strings at all.  Neither module applies `encodeJsonString`
on the sending side. -/
theorem c7_string_props_decoded :
    (∀ (builtins : String → Option (List Val → List (String × Val) → List (String × Val) × String))
       (impls : Nat → List (String × Val) → Val) (preactRoot : String)
       (fuel : Nat) (cid : Option String) (pid key s : String)
       (rest acc : List (String × Val)) (st : SState),
        Legacy.serializeAny builtins impls preactRoot decodeJsonString (fuel + 1)
            (.props cid pid ((key, .str s) :: rest) acc) st =
          Legacy.serializeAny builtins impls preactRoot decodeJsonString fuel
            (.props cid pid rest (setField acc key (.str (decodeJsonString s)))) st) ∧
    (∀ (iw ic : Nat → Bool) (fuel : Nat) (cid : Option String) (pid key s : String)
       (rest acc : List (String × Val)) (st : SState),
        Compose.serializeAny iw ic (fuel + 1)
            (.props cid pid ((key, .str s) :: rest) acc) st =
          Compose.serializeAny iw ic fuel
            (.props cid pid rest (setField acc key (.str s))) st) :=
  ⟨fun _ _ _ _ _ _ _ _ _ _ _ => rfl, fun _ _ _ _ _ _ _ _ _ _ => rfl⟩

/-- Deleting an absent key is the identity. -/
theorem eraseField_of_none (fs : List (String × Val)) (k : String)
    (h : lookupField fs k = none) : eraseField fs k = fs := by
  induction fs with
  | nil => rfl
  | cons kv rest ih =>
    obtain ⟨k0, v0⟩ := kv
    by_cases h0 : k0 = k
    · subst h0; simp [lookupField] at h
    · simp only [lookupField, if_neg h0] at h
      simp [eraseField, h0, ih h]

/-- Claim C6, counterexample: in the `composeSerializationMethods` module a
node whose `type` is a function that is NOT a recognized component marker
(`isWidget` and `isComponent` both reject it; that module has no
fragment or builtin branch) makes `serializeNode` THROW `unrecognized
Component function ...` instead of invoking the function and recursing
into its result. -/
theorem c6_counterexample :
    (Compose.serializeAny (fun _ => false) (fun _ => false) 5
        (.node (.obj [("type", .fn 3 "Wrapper" "function Wrapper() {}"),
                      ("props", .obj [])]) "par")
        ⟨[], []⟩).1 =
      .error (.thrown "unrecognized Component function Wrapper") := rfl

/-- Claim C6 (amended): in the LEGACY serialize module, `serializeNode` on
a node whose `type` is a function that is not the fragment/root marker,
not a builtin construct and not the `Widget` marker invokes that function
with the node's own props extended with a derived identity (`__bweMeta`
gains the derived `componentId` and `id` becomes `dom-` + that id), and
recurses into the RESULT in the same position — same accumulator, no
`childComponents` entry added, parent id for the recursion set to the
derived id.  The compose-module `serializeNode` instead throws for such
nodes, as `c6_counterexample` shows. -/
theorem c6_passthrough_invoke
    (builtins : String → Option (List Val → List (String × Val) → List (String × Val) × String))
    (impls : Nat → List (String × Val) → Val) (preactRoot : String) (decode : String → String)
    (fuel fid : Nat) (name body pid iid src : String) (pf : List (String × Val)) (st : SState)
    (hroot : name ≠ preactRoot) (hb : builtins name = none) (hw : name ≠ "Widget")
    (hch : lookupField pf "children" = none)
    (hmeta : lookupField pf "__bweMeta" = none)
    (hid : lookupField pf "id" = some (.str iid))
    (hsrc : lookupField pf "src" = some (.str src)) :
    Legacy.serializeAny builtins impls preactRoot decode (fuel + 1)
        (.node (.obj [("type", .fn fid name body), ("props", .obj pf)]) pid) st =
      Legacy.serializeAny builtins impls preactRoot decode fuel
        (.node (impls fid (spread2 pf
           [("__bweMeta", .obj [("componentId", .str (buildComponentId (some iid) src pid))]),
            ("id", .str ("dom-" ++ buildComponentId (some iid) src pid))]))
          (buildComponentId (some iid) src pid)) st := by
  have herase : eraseField pf "children" = pf := eraseField_of_none pf _ hch
  simp only [Legacy.serializeAny]
  simp [truthy, isObjectType, getProp, lookupField, hch, herase, hid, hsrc, hmeta,
    hroot, hb, hw, collectChildComponents, jsToString, jsJoinVal, spread2, setField]

/-- Witness for C6: a concrete pass-through wrapper under empty builtins. -/
theorem c6_witness :
    Legacy.serializeAny (fun _ => none) (fun _ _ => Val.str "rendered") "Frag"
        decodeJsonString 4
        (.node (.obj [("type", .fn 5 "Wrapper" "function Wrapper(props) { return null }"),
                      ("props", .obj [("id", .str "w1"), ("src", .str "a.near/W")])])
          "root") ⟨[], []⟩ =
      Legacy.serializeAny (fun _ => none) (fun _ _ => Val.str "rendered") "Frag"
        decodeJsonString 3
        (.node (Val.str "rendered") (buildComponentId (some "w1") "a.near/W" "root"))
        ⟨[], []⟩ := by
  have h := c6_passthrough_invoke (fun _ => none) (fun _ _ => Val.str "rendered") "Frag"
    decodeJsonString 3 5 "Wrapper" "function Wrapper(props) { return null }" "root" "w1"
    "a.near/W" [("id", .str "w1"), ("src", .str "a.near/W")] ⟨[], []⟩
    (by decide) rfl (by decide) rfl rfl rfl rfl
  exact h

/-- `serializeChildComponent` never lets a JS exception escape: its
`try`/`catch` swallows every thrown error from prop serialization (only
the artificial fuel marker of the embedding propagates). -/
theorem serializeChildComponent_no_thrown (iw ic : Nat → Bool) (fuel : Nat) (pid : String)
    (props : List (String × Val)) (st : SState) (e : String) :
    (Compose.serializeAny iw ic fuel (.child pid props) st).1 ≠ .error (.thrown e) := by
  cases fuel with
  | zero => simp [Compose.serializeAny]
  | succ f =>
    simp only [Compose.serializeAny]
    split <;> simp_all

/-- Claim C9: if serializing a nested component's props throws while
establishing its `ChildComponentMetadata`, the error is caught inside
`serializeChildComponent` (first conjunct: no thrown error ever escapes
it), that one component is omitted — the returned record carries a null
`child` alongside the placeholder, so nothing is pushed onto the
accumulator (second conjunct) — and the enclosing children loop of
`serializeNode` continues into the remaining siblings exactly as it would
after any successful child (third conjunct). -/
theorem c9_child_failure_isolated :
    (∀ (iw ic : Nat → Bool) (fuel : Nat) (pid : String) (props : List (String × Val))
       (st : SState) (e : String),
        (Compose.serializeAny iw ic fuel (.child pid props) st).1 ≠ .error (.thrown e)) ∧
    (∀ (iw ic : Nat → Bool) (fuel : Nat) (pid iid src : String) (tr : Val)
       (cpFields : List (String × Val)) (st st' : SState) (e : String),
        Compose.serializeAny iw ic fuel
            (.props (some (buildComponentId (some iid) src pid)) pid cpFields []) st =
          (.error (.thrown e), st') →
        Compose.serializeAny iw ic (fuel + 1)
            (.child pid [("id", .str iid), ("src", .str src),
                         ("props", .obj cpFields), ("trust", tr)]) st =
          (.ok (.obj [("child", .null),
                      ("placeholder", .obj [("type", .str "div"),
                        ("props", .obj [("id", .str ("dom-" ++ buildComponentId (some iid) src pid)),
                          ("__bweMeta", .obj [("componentId",
                            .str (buildComponentId (some iid) src pid))]),
                          ("className", .str "container-child")])])]), st')) ∧
    (∀ (iw ic : Nat → Bool) (fuel : Nat) (pid : String) (c : Val) (rest : List Val)
       (st st1 : SState) (r : Val),
        propsTruthy c = true →
        Compose.serializeAny iw ic fuel (.node c pid) st = (.ok r, st1) →
        Compose.serializeAny iw ic (fuel + 1) (.nodeList (c :: rest) pid) st =
          (match Compose.serializeAny iw ic fuel (.nodeList rest pid) st1 with
           | (.error e2, st2) => (.error e2, st2)
           | (.ok (.arr srest), st2) => (.ok (.arr (r :: srest)), st2)
           | (.ok _, st2) => (.error (.thrown "impossible"), st2))) := by
  refine ⟨serializeChildComponent_no_thrown, ?_, ?_⟩
  · intro iw ic fuel pid iid src tr cpFields st st' e h
    unfold Compose.serializeAny
    simp [lookupField, truthy, jsToString, jsJoinVal, asFields, childIdOf, placeholderOf, h]
  · intro iw ic fuel pid c rest st st1 r hc hrun
    have key : Compose.serializeAny iw ic (fuel + 1) (.nodeList (c :: rest) pid) st =
        (match (if propsTruthy c = true then Compose.serializeAny iw ic fuel (.node c pid) st
                else (Except.ok c, st)) with
         | (.error e2, st') => (.error e2, st')
         | (.ok sc, st') =>
           match Compose.serializeAny iw ic fuel (.nodeList rest pid) st' with
           | (.error e2, st2) => (.error e2, st2)
           | (.ok (.arr srest), st2) => (.ok (.arr (sc :: srest)), st2)
           | (.ok _, st2) => (.error (.thrown "impossible"), st2)) := rfl
    rw [key, if_pos hc, hrun]

/-- Witness for C9: a marker whose declared props hold a rendered node
with an unrecognized function type; prop serialization throws, the child
record is dropped, and the placeholder is still produced. -/
theorem c9_witness :
    Compose.serializeAny (fun _ => false) (fun _ => false) 6
        (.props (some (buildComponentId (some "x") "a/Bad" "par")) "par"
          [("widget", .obj [("type", .fn 9 "Bad" "function Bad() {}"),
                            ("props", .obj [("x", .null)]),
                            ("__", .null), ("__k", .null)])] [])
        ⟨[], []⟩ =
      (.error (.thrown "unrecognized Component function Bad"), ⟨[], []⟩) ∧
    Compose.serializeAny (fun _ => false) (fun _ => false) 7
        (.child "par" [("id", .str "x"), ("src", .str "a/Bad"),
          ("props", .obj [("widget", .obj [("type", .fn 9 "Bad" "function Bad() {}"),
                            ("props", .obj [("x", .null)]),
                            ("__", .null), ("__k", .null)])]),
          ("trust", .null)]) ⟨[], []⟩ =
      (.ok (.obj [("child", .null),
                  ("placeholder", .obj [("type", .str "div"),
                    ("props", .obj [("id", .str ("dom-" ++ buildComponentId (some "x") "a/Bad" "par")),
                      ("__bweMeta", .obj [("componentId",
                        .str (buildComponentId (some "x") "a/Bad" "par"))]),
                      ("className", .str "container-child")])])]), ⟨[], []⟩) :=
  ⟨rfl, c9_child_failure_isolated.2.1 (fun _ => false) (fun _ => false) 6 "par" "x" "a/Bad"
    .null
    [("widget", .obj [("type", .fn 9 "Bad" "function Bad() {}"),
                      ("props", .obj [("x", .null)]),
                      ("__", .null), ("__k", .null)])]
    ⟨[], []⟩ ⟨[], []⟩ "unrecognized Component function Bad" rfl⟩

/-- `serializeProps` never touches the shared `childComponents` accumulator:
its nested `serializeNode` calls run against a fresh array. -/
theorem props_cc (iw ic : Nat → Bool) : ∀ (fuel : Nat) (cid : Option String)
    (pid : String) (entries acc : List (String × Val)) (st : SState),
    ((Compose.serializeAny iw ic fuel (.props cid pid entries acc) st).2).childComponents =
      st.childComponents := by
  intro fuel
  induction fuel with
  | zero => intro cid pid entries acc st; simp [Compose.serializeAny]
  | succ f ih =>
    intro cid pid entries acc st
    match entries with
    | [] => simp [Compose.serializeAny]
    | (k, v) :: rest =>
      simp only [Compose.serializeAny]
      split
      · exact ih _ _ _ _ _
      · split
        · split
          · exact ih _ _ _ _ _
          · rfl
        · exact ih _ _ _ _ _

/-- `serializeProps` can only throw by recursing into `serializeNode` on a
prop value that passes the rendered-node check; on props with no such
value it never throws. -/
theorem props_safe_no_thrown (iw ic : Nat → Bool) : ∀ (fuel : Nat) (cid : Option String)
    (pid : String) (entries acc : List (String × Val)) (st : SState) (e : String),
    (∀ kv ∈ entries, isComponentCheck kv.2 = false) →
    (Compose.serializeAny iw ic fuel (.props cid pid entries acc) st).1 ≠
      .error (.thrown e) := by
  intro fuel
  induction fuel with
  | zero => intro cid pid entries acc st e _; simp [Compose.serializeAny]
  | succ f ih =>
    intro cid pid entries acc st e hsafe
    match entries with
    | [] => simp [Compose.serializeAny]
    | (k, v) :: rest =>
      have hrest : ∀ kv ∈ rest, isComponentCheck kv.2 = false :=
        fun kv hkv => hsafe kv (List.mem_cons_of_mem _ hkv)
      have hv : isComponentCheck v = false := hsafe (k, v) (by simp)
      simp only [Compose.serializeAny]
      split
      · exact ih _ _ _ _ _ _ hrest
      · split
        · simp_all
        · exact ih _ _ _ _ _ _ hrest

/-- On a marker whose declared component props are free of rendered-node
values, `serializeChildComponent` either runs out of fuel or returns the full
child record together with its placeholder, leaving the accumulator
alone. -/
theorem child_safe (iw ic : Nat → Bool) (fuel : Nat) (pid : String)
    (mpf cps : List (String × Val)) (st : SState)
    (hprops : lookupField mpf "props" = some (.obj cps))
    (hsafe : ∀ kv ∈ cps, isComponentCheck kv.2 = false) :
    (∃ st2, Compose.serializeAny iw ic fuel (.child pid mpf) st = (.error .fuel, st2)) ∨
    (∃ sprops st2, Compose.serializeAny iw ic fuel (.child pid mpf) st =
        (.ok (.obj [("child", .obj [("trust", (lookupField mpf "trust").getD .null),
                                    ("props", sprops),
                                    ("source", (lookupField mpf "src").getD .null),
                                    ("componentId", .str (childIdOf mpf pid))]),
                    ("placeholder", placeholderOf (childIdOf mpf pid))]), st2) ∧
      st2.childComponents = st.childComponents) := by
  cases fuel with
  | zero => exact Or.inl ⟨st, by simp [Compose.serializeAny]⟩
  | succ f =>
    simp only [Compose.serializeAny, hprops, truthy, asFields, if_true]
    rcases hrun : Compose.serializeAny iw ic f
        (.props (some (childIdOf mpf pid)) pid cps []) st with ⟨res, st2⟩
    rcases res with er | p
    · cases er with
      | thrown msg =>
        exact absurd (by rw [hrun]) (props_safe_no_thrown iw ic f _ _ _ _ _ msg hsafe)
      | fuel => exact Or.inl ⟨st2, rfl⟩
    · refine Or.inr ⟨p, st2, rfl, ?_⟩
      have h2 := props_cc iw ic f (some (childIdOf mpf pid)) pid cps [] st
      rw [hrun] at h2
      exact h2

/-- Deleting a key twice is the same as deleting it once. -/
theorem eraseField_idem (fs : List (String × Val)) (k : String) :
    eraseField (eraseField fs k) k = eraseField fs k := by
  induction fs with
  | nil => rfl
  | cons kv rest ih =>
    obtain ⟨k0, v0⟩ := kv
    by_cases h0 : k0 = k <;> simp [eraseField, h0, ih]

/-- Rendered children are never arrays, so `flat()` leaves them alone. -/
theorem jsFlat_toValList : ∀ ts : List PTree,
    jsFlat (PTree.toValList ts) = PTree.toValList ts := by
  intro ts
  induction ts with
  | nil => rfl
  | cons t ts ih =>
    show jsFlat (t.toVal :: PTree.toValList ts) = _
    simp only [jsFlat, List.flatMap_cons] at ih ⊢
    cases t <;> simp_all [PTree.toVal, PTree.toValList]

/-- Rendered children carry no `childComponents` property, so the
merge pre-pass contributes nothing. -/
theorem collect_toValList : ∀ ts : List PTree,
    collectChildComponents (PTree.toValList ts) = .ok [] := by
  intro ts
  induction ts with
  | nil => rfl
  | cons t ts ih =>
    show collectChildComponents (t.toVal :: PTree.toValList ts) = _
    cases t <;>
      simp_all [PTree.toVal, PTree.toValList, collectChildComponents, isObjectType,
        hasProp, getProp, lookupField, truthy]

/-- Structure eta for the serializer state. -/
theorem sstate_eta (st : SState) : SState.mk st.childComponents st.callbacks = st := rfl

/-- The host-element result node built by `serializeNode` is host-only as
soon as its serialized children are. -/
theorem hostval_result (tag : String) (X : List (String × Val)) (cc : Val) (rs : List Val)
    (hhost : ∀ x ∈ rs, HostVal x) :
    HostVal (Val.obj [("type", Val.str tag),
      ("props", Val.obj (spread2 X [("children", Val.arr rs)])),
      ("childComponents", cc)]) := by
  refine HostVal.node _ tag rfl ?_
  intro c hc
  have h1 : lookupField (spread2 X [("children", Val.arr rs)]) "children" =
      some (Val.arr rs) := by
    rw [lookupField_spread2 _ (by simp)]
    rfl
  have hk : childrenOf [("type", Val.str tag),
      ("props", Val.obj (spread2 X [("children", Val.arr rs)])),
      ("childComponents", cc)] = rs := by
    unfold childrenOf
    rw [show lookupField [("type", Val.str tag),
        ("props", Val.obj (spread2 X [("children", Val.arr rs)])),
        ("childComponents", cc)] "props" =
      some (Val.obj (spread2 X [("children", Val.arr rs)])) from rfl]
    show (match getProp (Val.obj (spread2 X [("children", Val.arr rs)])) "children" with
          | some (.arr es) => es
          | some v => [v]
          | none => []) = rs
    rw [show getProp (Val.obj (spread2 X [("children", Val.arr rs)])) "children" =
      lookupField (spread2 X [("children", Val.arr rs)]) "children" from rfl, h1]
  exact hhost c (by rwa [hk] at hc)

/-- A nested component placeholder is a host-only tree. -/
theorem hostval_placeholder (cid : String) : HostVal (placeholderOf cid) := by
  refine HostVal.node _ "div" rfl ?_
  intro c hc
  have hk : childrenOf [("type", Val.str "div"),
      ("props", Val.obj [("id", Val.str ("dom-" ++ cid)),
        ("__bweMeta", Val.obj [("componentId", Val.str cid)]),
        ("className", Val.str "container-child")])] = [] := rfl
  rw [hk] at hc
  cases hc

/-- `serializeNode` on a recognized marker node with throw-free component
props: the result is the placeholder and exactly one child-metadata entry
(carrying a `componentId`) is pushed. -/
theorem marker_node_case (iw ic : Nat → Bool) (f fid : Nat) (name body pid : String)
    (mpf cps : List (String × Val)) (st : SState) (r : Val) (st' : SState)
    (hch : lookupField mpf "children" = none)
    (hprops : lookupField mpf "props" = some (.obj cps))
    (hsafeC : ∀ kv ∈ cps, isComponentCheck kv.2 = false)
    (hrun : Compose.serializeAny iw ic (f + 1)
        (.node (.obj [("type", .fn fid name body), ("props", .obj mpf)]) pid) st =
      (.ok r, st')) :
    HostVal r ∧ ∃ news, st'.childComponents = st.childComponents ++ news ∧
      news.length = 1 ∧
      ∀ e ∈ news, ∃ cid, getProp e "componentId" = some (.str cid) := by
  have herase : eraseField mpf "children" = mpf := eraseField_of_none mpf _ hch
  have l1 : lookupField [("type", Val.fn fid name body), ("props", Val.obj mpf)] "props" =
      some (Val.obj mpf) := rfl
  have l2 : lookupField [("type", Val.fn fid name body), ("props", Val.obj mpf)] "type" =
      some (Val.fn fid name body) := rfl
  simp [Compose.serializeAny, truthy, isObjectType, getProp, l1, l2, hch, herase,
    collectChildComponents, List.append_nil, sstate_eta] at hrun
  by_cases hw : iw fid = false ∧ ic fid = false
  · rw [if_pos hw] at hrun
    simp at hrun
  · rw [if_neg hw] at hrun
    rcases child_safe iw ic f pid mpf cps st hprops hsafeC with ⟨st2, hfe⟩ | ⟨sprops, st2, heq, hcc⟩
    · rw [hfe] at hrun
      simp at hrun
    · rw [heq] at hrun
      have l3 : lookupField [("child", Val.obj [("trust", (lookupField mpf "trust").getD .null),
          ("props", sprops), ("source", (lookupField mpf "src").getD .null),
          ("componentId", Val.str (childIdOf mpf pid))]),
          ("placeholder", placeholderOf (childIdOf mpf pid))] "child" =
        some (Val.obj [("trust", (lookupField mpf "trust").getD .null),
          ("props", sprops), ("source", (lookupField mpf "src").getD .null),
          ("componentId", Val.str (childIdOf mpf pid))]) := rfl
      have l4 : lookupField [("child", Val.obj [("trust", (lookupField mpf "trust").getD .null),
          ("props", sprops), ("source", (lookupField mpf "src").getD .null),
          ("componentId", Val.str (childIdOf mpf pid))]),
          ("placeholder", placeholderOf (childIdOf mpf pid))] "placeholder" =
        some (placeholderOf (childIdOf mpf pid)) := rfl
      simp [l3, l4, truthy] at hrun
      obtain ⟨hr, hst⟩ := hrun
      subst hr
      refine ⟨hostval_placeholder _, [Val.obj [("trust", (lookupField mpf "trust").getD .null),
        ("props", sprops), ("source", (lookupField mpf "src").getD .null),
        ("componentId", Val.str (childIdOf mpf pid))]], ?_, rfl, ?_⟩
      · rw [← hst]
        simp [hcc]
      · intro e he
        simp at he
        subst he
        exact ⟨childIdOf mpf pid, rfl⟩

/-- Joint fuel induction for claim C1: a successful `serializeNode` run
over a rendered tree yields a host-only tree and appends exactly one
accumulator entry per marker (and likewise for children lists). -/
theorem c1_aux (iw ic : Nat → Bool) : ∀ fuel : Nat,
    (∀ (t : PTree) (pid : String) (st : SState) (r : Val) (st' : SState),
        safeMarkers t = true →
        Compose.serializeAny iw ic fuel (.node t.toVal pid) st = (.ok r, st') →
        HostVal r ∧ ∃ news, st'.childComponents = st.childComponents ++ news ∧
          news.length = markerCount t ∧
          ∀ e ∈ news, ∃ cid, getProp e "componentId" = some (.str cid)) ∧
    (∀ (ts : List PTree) (pid : String) (st : SState) (r : Val) (st' : SState),
        safeMarkersList ts = true →
        Compose.serializeAny iw ic fuel (.nodeList (PTree.toValList ts) pid) st = (.ok r, st') →
        (∃ rs, r = .arr rs ∧ ∀ x ∈ rs, HostVal x) ∧
        ∃ news, st'.childComponents = st.childComponents ++ news ∧
          news.length = markerCountList ts ∧
          ∀ e ∈ news, ∃ cid, getProp e "componentId" = some (.str cid)) := by
  intro fuel
  induction fuel with
  | zero =>
    constructor
    · intro t pid st r st' _ hrun
      simp [Compose.serializeAny] at hrun
    · intro ts pid st r st' _ hrun
      simp [Compose.serializeAny] at hrun
  | succ f ih =>
    obtain ⟨ihP, ihQ⟩ := ih
    constructor
    · intro t pid st r st' hsafe hrun
      cases t with
      | text s =>
        simp only [PTree.toVal] at hrun
        simp [Compose.serializeAny, isObjectType] at hrun
        obtain ⟨hr, hst⟩ := hrun
        subst hr; subst hst
        refine ⟨HostVal.leaf _ (fun fs h => by cases h), [], by simp, rfl, by simp⟩
      | elem tag props children =>
        have hsafeL : safeMarkersList children = true := by
          simpa [safeMarkers] using hsafe
        simp only [PTree.toVal] at hrun
        simp [Compose.serializeAny, truthy, isObjectType, getProp, lookupField,
          eraseField, eraseField_idem, collect_toValList, jsFlat_toValList,
          List.append_nil, sstate_eta] at hrun
        rcases hp : Compose.serializeAny iw ic f
            (.props none pid (eraseField props "children") []) st with ⟨pres, st2⟩
        rw [hp] at hrun
        rcases pres with er | sprops
        · simp at hrun
        · simp only [] at hrun
          rcases hl : Compose.serializeAny iw ic f
              (.nodeList (PTree.toValList children) pid) st2 with ⟨lres, st3⟩
          rw [hl] at hrun
          rcases lres with er2 | cres
          · simp at hrun
          · simp only [] at hrun
            obtain ⟨hr, hst⟩ := hrun
            obtain ⟨⟨rs, hrs, hhost⟩, news, hcc3, hlen, hcid⟩ :=
              ihQ children pid st2 cres st' hsafeL hl
            subst hrs
            have hcc2 : st2.childComponents = st.childComponents := by
              have h2 := props_cc iw ic f none pid (eraseField props "children") [] st
              rw [hp] at h2
              exact h2
            refine ⟨?_, news, by rw [hcc3, hcc2], by rw [hlen]; rfl, hcid⟩
            exact hostval_result tag (asFields sprops) (Val.arr st'.childComponents) rs hhost
      | marker fid name body iid src cps tr =>
        have hsafeC : ∀ kv ∈ cps, isComponentCheck kv.2 = false := by
          intro kv hkv
          have := hsafe
          simp only [safeMarkers, List.all_eq_true] at this
          simpa using this kv hkv
        simp only [PTree.toVal] at hrun
        cases iid with
        | none =>
          have h := marker_node_case iw ic f fid name body pid
            [("src", Val.str src), ("props", Val.obj cps), ("trust", tr)] cps st r st'
            rfl rfl hsafeC hrun
          exact ⟨h.1, h.2⟩
        | some i =>
          have h := marker_node_case iw ic f fid name body pid
            [("id", Val.str i), ("src", Val.str src), ("props", Val.obj cps), ("trust", tr)]
            cps st r st' rfl rfl hsafeC hrun
          exact ⟨h.1, h.2⟩
    · intro ts pid st r st' hsafe hrun
      cases ts with
      | nil =>
        simp only [PTree.toValList] at hrun
        simp [Compose.serializeAny] at hrun
        obtain ⟨hr, hst⟩ := hrun
        subst hr; subst hst
        exact ⟨⟨[], rfl, by simp⟩, [], by simp, rfl, by simp⟩
      | cons t ts' =>
        obtain ⟨hsafeH, hsafeT⟩ : safeMarkers t = true ∧ safeMarkersList ts' = true := by
          simpa [safeMarkersList, Bool.and_eq_true] using hsafe
        have key : Compose.serializeAny iw ic (f + 1)
            (.nodeList (t.toVal :: PTree.toValList ts') pid) st =
            (match (if propsTruthy t.toVal = true
                    then Compose.serializeAny iw ic f (.node t.toVal pid) st
                    else (Except.ok t.toVal, st)) with
             | (.error e2, st1) => (.error e2, st1)
             | (.ok sc, st1) =>
               match Compose.serializeAny iw ic f (.nodeList (PTree.toValList ts') pid) st1 with
               | (.error e2, st2) => (.error e2, st2)
               | (.ok (.arr srest), st2) => (.ok (.arr (sc :: srest)), st2)
               | (.ok _, st2) => (.error (.thrown "impossible"), st2)) := rfl
        rw [show PTree.toValList (t :: ts') = t.toVal :: PTree.toValList ts' from rfl,
          key] at hrun
        by_cases hpt : propsTruthy t.toVal = true
        · rw [if_pos hpt] at hrun
          rcases hn : Compose.serializeAny iw ic f (.node t.toVal pid) st with ⟨nres, st1⟩
          rw [hn] at hrun
          rcases nres with er | rn
          · simp at hrun
          · obtain ⟨hhost1, news1, hcc1, hlen1, hcid1⟩ := ihP t pid st rn st1 hsafeH hn
            simp only [] at hrun
            rcases hl : Compose.serializeAny iw ic f
                (.nodeList (PTree.toValList ts') pid) st1 with ⟨rres, st2⟩
            rw [hl] at hrun
            rcases rres with er2 | cres
            · simp at hrun
            · obtain ⟨⟨rs, hrs, hhost2⟩, news2, hcc2, hlen2, hcid2⟩ :=
                ihQ ts' pid st1 cres st2 hsafeT hl
              subst hrs
              simp only [] at hrun
              obtain ⟨hr, hst⟩ := hrun
              refine ⟨⟨rn :: rs, rfl, ?_⟩, news1 ++ news2, ?_, ?_, ?_⟩
              · intro x hx
                rcases List.mem_cons.mp hx with hx1 | hx2
                · subst hx1; exact hhost1
                · exact hhost2 x hx2
              · rw [hcc2, hcc1, List.append_assoc]
              · show _ = markerCountList (t :: ts')
                rw [List.length_append, hlen1, hlen2]
                rfl
              · intro e he
                rcases List.mem_append.mp he with h1 | h2
                · exact hcid1 e h1
                · exact hcid2 e h2
        · -- the child is not serialized: it must be a text leaf
          rw [if_neg hpt] at hrun
          cases t with
          | text s =>
            simp only [] at hrun
            rcases hl : Compose.serializeAny iw ic f
                (.nodeList (PTree.toValList ts') pid) st with ⟨rres, st2⟩
            rw [hl] at hrun
            rcases rres with er2 | cres
            · simp at hrun
            · obtain ⟨⟨rs, hrs, hhost2⟩, news2, hcc2, hlen2, hcid2⟩ :=
                ihQ ts' pid st cres st2 hsafeT hl
              subst hrs
              simp only [] at hrun
              obtain ⟨hr, hst⟩ := hrun
              refine ⟨⟨(PTree.text s).toVal :: rs, rfl, ?_⟩, news2, hcc2, ?_, hcid2⟩
              · intro x hx
                rcases List.mem_cons.mp hx with hx1 | hx2
                · subst hx1
                  exact HostVal.leaf _ (fun fs h => by simp [PTree.toVal] at h)
                · exact hhost2 x hx2
              · rw [hlen2]
                show markerCountList ts' = markerCountList (PTree.text s :: ts')
                simp [markerCountList, markerCount]
          | elem tag props children =>
            exact absurd (show propsTruthy (PTree.elem tag props children).toVal = true
              from rfl) hpt
          | marker fid name body iid src cps tr =>
            exact absurd (show propsTruthy (PTree.marker fid name body iid src cps tr).toVal
              = true from rfl) hpt

/-- Claim C1, counterexample: a tree with two nested component markers
declaring the same `src` and the same instance `id` under the same parent
serializes to two accumulator entries with IDENTICAL `componentId`s — the
entries are not distinct. -/
theorem c1_counterexample :
    markerCount (PTree.elem "div" []
      [PTree.marker 7 "Component" "function C() {}" (some "x") "s" [] .null,
       PTree.marker 7 "Component" "function C() {}" (some "x") "s" [] .null]) = 2 ∧
    ((Compose.serializeAny (fun _ => false) (fun _ => true) 10
        (.node (PTree.elem "div" []
          [PTree.marker 7 "Component" "function C() {}" (some "x") "s" [] .null,
           PTree.marker 7 "Component" "function C() {}" (some "x") "s" [] .null]).toVal "p")
        ⟨[], []⟩).2.childComponents.map (fun e => getProp e "componentId")) =
      [some (.str "s##x##p"), some (.str "s##x##p")] := ⟨rfl, rfl⟩

/-- Claim C1 (amended): for every rendered tree whose markers declare only
throw-free component props, a `serializeNode` run that completes without
throwing returns a host-only tree (every object node's `type` is a string)
and appends exactly `markerCount t` entries to the `childComponents`
accumulator, each carrying a `componentId`.  The componentIds need NOT be
pairwise distinct: sibling markers with the same source and instance id
under the same parent collide, as `c1_counterexample` shows. -/
theorem c1_serializeNode_host_only_count (iw ic : Nat → Bool) (fuel : Nat) (t : PTree)
    (pid : String) (st : SState) (r : Val) (st' : SState)
    (hsafe : safeMarkers t = true)
    (hrun : Compose.serializeNode iw ic fuel t.toVal pid st = (.ok r, st')) :
    HostVal r ∧ ∃ news, st'.childComponents = st.childComponents ++ news ∧
      news.length = markerCount t ∧
      ∀ e ∈ news, ∃ cid, getProp e "componentId" = some (.str cid) :=
  (c1_aux iw ic fuel).1 t pid st r st' hsafe hrun

/-- Witness for C1 on a concrete tree with a text leaf and one marker. -/
theorem c1_witness :
    HostVal (Val.obj [("type", Val.str "div"),
      ("props", Val.obj [("title", Val.str "hi"),
        ("children", Val.arr [Val.str "hello",
          Val.obj [("type", Val.str "div"),
            ("props", Val.obj [("id", Val.str "dom-a.near/W##x##root"),
              ("__bweMeta", Val.obj [("componentId", Val.str "a.near/W##x##root")]),
              ("className", Val.str "container-child")])]])]),
      ("childComponents", Val.arr [Val.obj [("trust", Val.null),
        ("props", Val.obj [("msg", Val.str "m")]),
        ("source", Val.str "a.near/W"),
        ("componentId", Val.str "a.near/W##x##root")]])]) ∧
    ∃ news, (SState.mk [Val.obj [("trust", Val.null),
        ("props", Val.obj [("msg", Val.str "m")]),
        ("source", Val.str "a.near/W"),
        ("componentId", Val.str "a.near/W##x##root")]] []).childComponents =
      (SState.mk [] []).childComponents ++ news ∧
      news.length = markerCount (PTree.elem "div" [("title", Val.str "hi")]
        [PTree.text "hello",
         PTree.marker 7 "Component" "function C() {}" (some "x") "a.near/W"
           [("msg", Val.str "m")] Val.null]) ∧
      ∀ e ∈ news, ∃ cid, getProp e "componentId" = some (Val.str cid) :=
  c1_serializeNode_host_only_count (fun _ => false) (fun _ => true) 20
    (PTree.elem "div" [("title", Val.str "hi")]
      [PTree.text "hello",
       PTree.marker 7 "Component" "function C() {}" (some "x") "a.near/W"
         [("msg", Val.str "m")] Val.null])
    "root" ⟨[], []⟩ _ _ rfl rfl
